import Mathlib

/-!
# A verification model of the `bigrays` task execution engine

This file is a shallow embedding, in Lean 4, of the core of the `bigrays`
Python package: the output/placeholder store (`bigrays/tasks.py`:
`Placeholder`, `TaskOutput`), the resource lifecycle
(`bigrays/resources.py`: `BaseResource`, `ResourceManager`), the task
registry (`bigrays/tasks.py`: `Register`), and the execution engine
(`bigrays/run.py`: `BigRays`).

Modelling conventions:

* Python object references are modelled by natural-number identities.
  A configuration object carries its reference (`ref`) and its structural
  payload (`fields`); Python `is` on configuration objects coincides with
  equality of the whole `ConfigObj` value, since two distinct objects get
  distinct `ref`s even when their `fields` agree.
* Class-level mutable state (`BaseResource._resource`, the task register,
  the output descriptor) is threaded explicitly through a `World` record.
* Exceptions are modelled with `Except`/`Option` results; the concrete
  Python exception classes are mapped to constructors of `Err`.
* Dictionaries are modelled as association lists updated by prepending,
  so `List.lookup` returns the most recent binding, as a Python dict does.
-/

namespace Bigrays

/-- Task identity: in Python the task class object itself. -/
abbrev TaskId := Nat

/-- Resource identity: in Python the resource class object itself
(`SQLSession`, `S3Client`, ...). -/
abbrev ResourceId := Nat

/-- Opaque runtime values (task results, resource handles). -/
abbrev Value := Nat

/-- A configuration object: `ref` models the Python object reference,
`fields` its structural content.  `ResourceManager` compares configurations
with `is`, i.e. by `ref`; two structurally equal configurations may have
different `ref`s. -/
structure ConfigObj where
  ref : Nat
  fields : List (String × Nat)
deriving DecidableEq, Repr

/-- The errors the modelled code can raise.

* `resourceError` — `bigrays.exceptions.ResourceError` (open failed, or the
  open/close protocol was violated);
* `unresolvedPlaceholder` — the `AttributeError` raised by
  `Placeholder.value` when the placeholder is unset (the spec's
  `UnresolvedReferenceError`);
* `noOpenedResource` — the `RuntimeError` raised by
  `BaseResource.resource()` when no handle is open;
* `taskErr code` — an arbitrary exception raised inside a task's `run()`. -/
inductive Err where
  | resourceError
  | unresolvedPlaceholder
  | noOpenedResource
  | taskErr (code : Nat)
deriving DecidableEq, Repr

/-! ## Output / placeholder store (`bigrays/tasks.py`, `Placeholder` and
`TaskOutput`)

`Placeholder` objects are mutable cells; we model the population of
placeholder objects as a heap `heap : List (Nat × Option Value)` indexed by
allocation order (`nextPh` is the allocation counter).  A heap entry `none`
is the `UNSET` sentinel.  `TaskOutput` keeps `values` (task → concrete
result, Python `_values`) and `placeholders` (task → placeholder object,
Python `_placeholders`). -/

/-- The state of a `TaskOutput` descriptor together with the placeholder
objects it has handed out. -/
structure OutStore where
  values : List (TaskId × Value)
  placeholders : List (TaskId × Nat)
  heap : List (Nat × Option Value)
  nextPh : Nat
deriving DecidableEq, Repr

/-- The empty store: a freshly constructed `TaskOutput()`. -/
def OutStore.empty : OutStore := ⟨[], [], [], 0⟩

/-- Result of `TaskOutput.__get__`: either the concrete recorded value or a
placeholder object (identified by its heap index). -/
inductive OutRead where
  | val (v : Value)
  | ph (p : Nat)
deriving DecidableEq, Repr

/-- `TaskOutput.__get__`: return the concrete value if the task has
completed; otherwise return (allocating on first demand) the placeholder
for that task.  Mirrors `tasks.py` lines 52-58. -/
def OutStore.get (s : OutStore) (k : TaskId) : OutRead × OutStore :=
  match s.values.lookup k with
  | some v => (.val v, s)
  | none =>
    match s.placeholders.lookup k with
    | some p => (.ph p, s)
    | none =>
      (.ph s.nextPh,
        { s with placeholders := (k, s.nextPh) :: s.placeholders,
                 heap := (s.nextPh, none) :: s.heap,
                 nextPh := s.nextPh + 1 })

/-- `TaskOutput.__set__`: record the value; if a placeholder was previously
issued for this task, resolve it in place.  Mirrors `tasks.py` lines 60-64. -/
def OutStore.set (s : OutStore) (k : TaskId) (v : Value) : OutStore :=
  let heap1 :=
    match s.placeholders.lookup k with
    | some p => (p, some v) :: s.heap
    | none => s.heap
  { s with values := (k, v) :: s.values, heap := heap1 }

/-- `Placeholder.value` (the property getter): raises if the cell is still
`UNSET`.  Mirrors `tasks.py` lines 32-37. -/
def OutStore.phValue (s : OutStore) (p : Nat) : Except Err Value :=
  match s.heap.lookup p with
  | some (some v) => .ok v
  | _ => .error .unresolvedPlaceholder

/-- Consistency of an output store.  Every state reachable through
`OutStore.get`/`OutStore.set` from `OutStore.empty` satisfies this:
placeholder indices are below the allocation counter, each issued
placeholder's cell holds exactly the recorded value of its task (`none`
when the task has not completed), and no two tasks share a placeholder
object. -/
def OutStore.WF (s : OutStore) : Prop :=
  (∀ k p, s.placeholders.lookup k = some p →
      p < s.nextPh ∧ s.heap.lookup p = some (s.values.lookup k)) ∧
  (∀ k1 k2 p, s.placeholders.lookup k1 = some p →
      s.placeholders.lookup k2 = some p → k1 = k2)

/-! ## Resources and the resource manager (`bigrays/resources.py`)

`BaseResource` stores its open handle as class state (`_resource`); we
model the per-resource handle table as an association list `handles`
(absent key = `None`).  `ResourceManager` tracks the active
(resource, configuration) pair, with the `_none` sentinel class modelled by
`Slot.sentinel`.  Every open/close call on resources is recorded in an
event trace so that "how often was this resource opened/closed" is
observable. -/

/-- An entry of the resource event trace. `opened`/`openFailed` record a
`BaseResource.open` call (by resource and configuration reference),
`closed` a successful `BaseResource.close` call. -/
inductive Ev where
  | opened (r : ResourceId) (cref : Nat)
  | openFailed (r : ResourceId) (cref : Nat)
  | closed (r : ResourceId)
deriving DecidableEq, Repr

/-- Either the `ResourceManager._none` sentinel or an actual reference. -/
inductive Slot (α : Type) where
  | sentinel
  | ref (a : α)
deriving DecidableEq, Repr

/-- The mutable attributes of a `ResourceManager` instance. -/
structure RMState where
  resource : Slot ResourceId
  config : Slot ConfigObj
  openingResource : Bool
deriving DecidableEq, Repr

/-- `ResourceManager._init_state()`. -/
def RMState.init : RMState := ⟨.sentinel, .sentinel, false⟩

/-- The full mutable state threaded through a run: the resource manager,
the per-resource-class handles (`BaseResource._resource`), the output
store, and the event trace. -/
structure World where
  rm : RMState
  handles : List (ResourceId × Option Value)
  out : OutStore
  trace : List Ev
deriving DecidableEq, Repr

/-- The state at the start of `BigRays.run` (fresh manager, no resource
opened, empty output store). -/
def World.init : World := ⟨RMState.init, [], OutStore.empty, []⟩

/-- `BaseResource._resource` of resource class `r` (class attribute,
default `None`). -/
def World.handleOf (w : World) (r : ResourceId) : Option Value :=
  match w.handles.lookup r with
  | some h => h
  | none => none

/-- The static environment of a run: the process-wide configuration object
(`BigRaysConfig`, which is also the manager's `default_config`), the
behaviour of each resource class's `_open` (`none` = raise), each resource
class's `required_configs` attribute, and attribute lookup on
`BigRaysConfig` (`none` models both an absent and a `None`-valued
attribute, exactly the test `getattr(config, c, None) is None`). -/
structure Env where
  defaultConfig : ConfigObj
  openSpec : ResourceId → ConfigObj → Option Value
  reqConfigs : ResourceId → List String
  cfgAttr : String → Option Value

/-- `BaseResource.open(config)`: run `_open`; a failure is wrapped into
`ResourceError` and the handle stays unset; on success the handle is
registered.  Mirrors `resources.py` lines 161-177. -/
def resource_open (env : Env) (r : ResourceId) (c : ConfigObj) (w : World) :
    Except (Err × World) World :=
  match env.openSpec r c with
  | none =>
      .error (.resourceError,
        { w with trace := w.trace ++ [.openFailed r c.ref] })
  | some h =>
      .ok { w with handles := (r, some h) :: w.handles,
                   trace := w.trace ++ [.opened r c.ref] }

/-- `BaseResource.close(*exc)`: raises `ResourceError` when the handle is
unset; otherwise runs `_close` (which returns `False` for every resource of
the repository) and clears the handle.  Mirrors `resources.py` lines
179-197. -/
def resource_close (r : ResourceId) (w : World) :
    Except (Err × World) (Bool × World) :=
  match w.handleOf r with
  | none => .error (.resourceError, w)
  | some _ =>
      .ok (false, { w with handles := (r, none) :: w.handles,
                           trace := w.trace ++ [.closed r] })

/-- `BaseResource.resource()`: the current handle, or the "no opened
resource" `RuntimeError`.  Mirrors `resources.py` lines 199-203. -/
def resource_of (r : ResourceId) (w : World) : Except Err Value :=
  match w.handleOf r with
  | some h => .ok h
  | none => .error .noOpenedResource

/-- `ResourceManager._cleanup(*exc)`: close the active resource if there is
one and its open did not fail, then reset the manager state.  The returned
flag is the close's ignore-exception flag.  Mirrors `resources.py` lines
100-111. -/
def cleanup (w : World) : Except (Err × World) (Bool × World) :=
  match w.rm.resource, w.rm.config with
  | .ref r, .ref _ =>
      if w.rm.openingResource then
        .ok (false, { w with rm := RMState.init })
      else
        match resource_close r w with
        | .error ew => .error ew
        | .ok (flag, w1) => .ok (flag, { w1 with rm := RMState.init })
  | _, _ => .ok (false, w)

/-- `ResourceManager._open_resource`: set `_opening_resource`, attempt the
open, and clear the flag only on success.  Mirrors `resources.py` lines
87-98. -/
def open_resource_inner (env : Env) (r : ResourceId) (c : ConfigObj)
    (w : World) : Except (Err × World) World :=
  let w1 := { w with rm := { w.rm with openingResource := true } }
  match resource_open env r c w1 with
  | .error ew => .error ew
  | .ok w2 => .ok { w2 with rm := { w2.rm with openingResource := false } }

/-- The negation of `open_resource`'s guard
`resource is not self.resource or config is not self.config`: the requested
resource and the (default-substituted) configuration are the same references
as the currently active pair.  `None is self.resource` is always false,
since `self.resource` is either the `_none` sentinel or a resource class. -/
def sameActivePair (w : World) (r? : Option ResourceId) (c : ConfigObj) :
    Bool :=
  (match r?, w.rm.resource with
   | some r, .ref r0 => r == r0
   | _, _ => false) &&
  (match w.rm.config with
   | .ref c0 => c == c0
   | .sentinel => false)

/-- `ResourceManager.open_resource(resource, config=None)`: substitute the
default configuration, no-op when both the resource and the configuration
are the same references as the active pair, otherwise clean up and (for a
non-`None` resource) record the new active pair before opening it.
Mirrors `resources.py` lines 71-85. -/
def open_resource_core (env : Env) (r? : Option ResourceId) (c : ConfigObj)
    (w : World) : Except (Err × World) World :=
  if sameActivePair w r? c then .ok w
  else
    match cleanup w with
    | .error ew => .error ew
    | .ok (_, w1) =>
      match r? with
      | none => .ok w1
      | some r =>
          open_resource_inner env r c
            { w1 with rm := { w1.rm with resource := .ref r, config := .ref c } }

/-- `open_resource` proper: first the default-configuration substitution
`config = self.default_config if config is None else config`, then the body
(`open_resource_core`). -/
def open_resource (env : Env) (r? : Option ResourceId) (c? : Option ConfigObj)
    (w : World) : Except (Err × World) World :=
  open_resource_core env r?
    (match c? with
     | none => env.defaultConfig
     | some c => c) w

/-! ## Tasks and the execution engine (`bigrays/tasks.py` `BaseTask`,
`bigrays/run.py` `BigRays`) -/

/-- The body of a task's `run()` method, as far as the engine can observe
it: return a value, raise, read another task's output descriptor (and the
placeholder's `value` if unresolved), or access the current handle of a
resource class. -/
inductive TaskBehavior where
  | ret (v : Value)
  | raiseErr (code : Nat)
  | readOutput (j : TaskId)
  | useResource (r : ResourceId)
deriving DecidableEq, Repr

/-- A task class: its identity, the `run_with_exceptions` /
`required_resource` / `resource_config` class attributes (with the
`BaseTask` defaults) and its `run()` body. -/
structure TaskDef where
  id : TaskId
  run_with_exceptions : Bool := false
  required_resource : Option ResourceId := none
  resource_config : Option ConfigObj := none
  behavior : TaskBehavior := .ret 0
deriving DecidableEq, Repr

/-- Execute a task body (see `TaskBehavior`). -/
def run_behavior (b : TaskBehavior) (w : World) : Except Err Value × World :=
  match b with
  | .ret v => (.ok v, w)
  | .raiseErr code => (.error (.taskErr code), w)
  | .readOutput j =>
      match w.out.get j with
      | (.val v, s1) => (.ok v, { w with out := s1 })
      | (.ph p, s1) =>
          match s1.phValue p with
          | .ok v => (.ok v, { w with out := s1 })
          | .error e => (.error e, { w with out := s1 })
  | .useResource r =>
      match resource_of r w with
      | .ok h => (.ok h, w)
      | .error e => (.error e, w)

/-- `BigRays._run_task` followed by `BaseTask.__call__`: ensure the
required resource is open, instantiate and call the task; on success record
the result in the output store under the task's identity (mirrors
`run.py` lines 193-202 and `tasks.py` lines 119-122). -/
def run_task (env : Env) (t : TaskDef) (w : World) : Option Err × World :=
  match open_resource env t.required_resource t.resource_config w with
  | .error (e, w1) => (some e, w1)
  | .ok w1 =>
      match run_behavior t.behavior w1 with
      | (.error e, w2) => (some e, w2)
      | (.ok v, w2) => (none, { w2 with out := w2.out.set t.id v })

/-- Per-task outcome of a run. -/
inductive Outcome where
  | skipped
  | ok
  | failed (e : Err)
deriving DecidableEq, Repr

/-- Whether an outcome is a failure. -/
def Outcome.isFailed : Outcome → Bool
  | .failed _ => true
  | _ => false

/-- `BigRays._run_tasks_with_error_harness(tasks, resource_manager,
failed_tasks)`.

The Python method pops tasks off a deque inside `while`/`try`/`finally`
and recurses in the `finally` block; the recursion is there purely so that
the interpreter's exception-context chaining prints every traceback.  Its
net effect on state is the structural recursion below: process tasks in
order; once `failed_tasks` is non-empty, a task with
`run_with_exceptions = False` is skipped outright (`continue`); a failing
task (resource open failure or task body failure alike) is appended to
`failed_tasks` together with its error, and the run continues.  We also
return the per-task outcomes, aligned with the input list.  Mirrors
`run.py` lines 170-191. -/
def run_tasks_with_error_harness (env : Env) :
    List TaskDef → List (TaskId × Err) → World →
    World × List (TaskId × Err) × List Outcome
  | [], failed, w => (w, failed, [])
  | t :: rest, failed, w =>
      if failed ≠ [] ∧ t.run_with_exceptions = false then
        let res := run_tasks_with_error_harness env rest failed w
        (res.1, res.2.1, .skipped :: res.2.2)
      else
        match run_task env t w with
        | (none, w1) =>
            let res := run_tasks_with_error_harness env rest failed w1
            (res.1, res.2.1, .ok :: res.2.2)
        | (some e, w1) =>
            let res := run_tasks_with_error_harness env rest (failed ++ [(t.id, e)]) w1
            (res.1, res.2.1, .failed e :: res.2.2)

/-- The aggregate failure raised by `BigRays._run_tasks`
(`exc.BigRaysError`): its message carries every failed task in the order
the failures occurred, and its exception-context chain carries each
underlying error (`raise ... from err` plus the interpreter's implicit
chaining through the recursion); `errors` lists them in failure order. -/
structure AggregateError where
  failedTasks : List TaskId
  errors : List Err
deriving DecidableEq, Repr

/-- An error that terminates `BigRays.run`. -/
inductive RunError where
  | configurationError (namedResource : Option ResourceId) (missing : List String)
  | bigRaysError (agg : AggregateError)
  | exitError (e : Err)
deriving DecidableEq, Repr

/-- `BigRays._check_configs(config, resources)`: collect, across all
resources in iteration order, the required configuration keys whose value
on the configuration is absent or `None`; if any, raise
`ConfigurationError`.  The message's f-string names `{resource}` — the loop
variable, i.e. the LAST iterated resource — next to the full missing list.
`some (resources.getLast?, missing)` models that error.  Mirrors `run.py`
lines 42-56. -/
def check_configs (env : Env) (resources : List ResourceId) :
    Option (Option ResourceId × List String) :=
  let missing := resources.flatMap
    (fun r => (env.reqConfigs r).filter (fun c => (env.cfgAttr c).isNone))
  if missing.isEmpty then none else some (resources.getLast?, missing)

/-- `BigRays._define_required_resources(tasks)`: the set comprehension
`{task.required_resource for task in tasks if ... is not None}`.  A Python
set's iteration order is unspecified; the model enumerates it in
first-occurrence order, and the theorems below rely on membership only. -/
def define_required_resources (tasks : List TaskDef) : List ResourceId :=
  (tasks.filterMap (fun t => t.required_resource)).eraseDups

/-- The observable result of `BigRays.run`: the raised error (if any), the
final state, the failure record and the per-task outcomes. -/
structure RunResult where
  result : Except RunError Unit
  world : World
  failed : List (TaskId × Err)
  outcomes : List Outcome
deriving Repr

/-- The exit path of `BigRays.run`: the `ResourceManager.__exit__` runs
`_cleanup`.  If the failure record is non-empty, `_run_tasks` wraps the
propagating exception in `BigRaysError` (unless the close's ignore-flag
suppressed it); an exception raised by the close during `__exit__`
propagates instead.  Mirrors `run.py` lines 15-23 and 58-78. -/
def bigrays_run_post (res : World × List (TaskId × Err) × List Outcome) :
    RunResult :=
  match cleanup res.1 with
  | .error (e, w2) =>
      { result := .error (.exitError e),
        world := w2, failed := res.2.1, outcomes := res.2.2 }
  | .ok (flag, w2) =>
      if res.2.1.isEmpty then
        { result := .ok (), world := w2,
          failed := res.2.1, outcomes := res.2.2 }
      else if flag then
        { result := .ok (), world := w2,
          failed := res.2.1, outcomes := res.2.2 }
      else
        { result := .error (.bigRaysError
            ⟨res.2.1.map Prod.fst, res.2.1.map Prod.snd⟩),
          world := w2, failed := res.2.1, outcomes := res.2.2 }

/-- `BigRays.run(*tasks)` for an explicit task list: pre-flight check, then
the harness inside the `ResourceManager` context, then the exit path
(`bigrays_run_post`). -/
def bigrays_run (env : Env) (tasks : List TaskDef) : RunResult :=
  match check_configs env (define_required_resources tasks) with
  | some (rsrc, missing) =>
      { result := .error (.configurationError rsrc missing),
        world := World.init, failed := [], outcomes := [] }
  | none =>
      bigrays_run_post (run_tasks_with_error_harness env tasks [] World.init)

/-! ## Task registration (`bigrays/tasks.py`, metaclass `Register`) -/

/-- A Python class as `Register.__new__` sees it: its name, its direct
bases, and its own namespace.  A namespace entry maps an attribute name to
whether its value `is REQUIRED_ATTRIBUTE`. -/
inductive PyClass where
  | mk (name : String) (bases : List PyClass) (ns : List (String × Bool))

/-- The class's `__name__`. -/
def PyClass.name : PyClass → String
  | .mk n _ _ => n

/-- The class's direct bases. -/
def PyClass.bases : PyClass → List PyClass
  | .mk _ bs _ => bs

/-- The class's own namespace (`vars(cls)`). -/
def PyClass.ns : PyClass → List (String × Bool)
  | .mk _ _ ns => ns

/-- The attributes of a namespace whose value `is REQUIRED_ATTRIBUTE`. -/
def requiredIn (ns : List (String × Bool)) : List String :=
  ns.filterMap (fun p => if p.2 then some p.1 else none)

/-- The set `{attr for base in bases for attr, val in vars(base).items()
if val is REQUIRED_ATTRIBUTE}` of `Register._check_interface` — note: only
the DIRECT bases' own dicts.  A Python set iterates in unspecified order;
the model fixes first-occurrence order and the theorems below rely on
membership only. -/
def required_attributes (bases : List PyClass) : List String :=
  (bases.flatMap (fun b => requiredIn b.ns)).eraseDups

/-- `namespace.get(attr, REQUIRED_ATTRIBUTE) is REQUIRED_ATTRIBUTE`:
the attribute is missing from the new class's own namespace or is itself
left as the required-marker. -/
def notProvided (ns : List (String × Bool)) (a : String) : Bool :=
  match ns.lookup a with
  | some isReq => isReq
  | none => true

/-- The `missing` list of `Register._check_interface`. -/
def missing_attributes (bases : List PyClass) (ns : List (String × Bool)) :
    List String :=
  (required_attributes bases).filter (notProvided ns)

/-- `Register._check_interface(name, bases, namespace)`:
`some (name, missing)` models raising `TaskInterfaceError` naming the type
and the missing attributes.  Mirrors `tasks.py` lines 94-103. -/
def check_interface (name : String) (bases : List PyClass)
    (ns : List (String × Bool)) : Option (String × List String) :=
  let missing := missing_attributes bases ns
  if missing.isEmpty then none else some (name, missing)

mutual

/-- A class together with all its (transitive) ancestors. -/
def PyClass.selfAndAncestors : PyClass → List PyClass
  | .mk n bs ns => .mk n bs ns :: ancestorsAll bs

/-- All classes reachable from a list of classes through base edges. -/
def ancestorsAll : List PyClass → List PyClass
  | [] => []
  | c :: cs => c.selfAndAncestors ++ ancestorsAll cs

end

/-- Modelled from the spec: the claim's reading "some attribute marked as
required by ANY ANCESTOR type", i.e. required attributes collected from
every (transitive) ancestor rather than only from the direct bases' own
dicts.  Used to compare the code's check against the claim. -/
def required_attributes_spec (c : PyClass) : List String :=
  ((ancestorsAll c.bases).flatMap (fun b => requiredIn b.ns)).eraseDups

/-- Modelled from the spec: the missing attributes under the "any ancestor"
reading. -/
def missing_attributes_spec (c : PyClass) : List String :=
  (required_attributes_spec c).filter (notProvided c.ns)

/-- The metaclass's global registration state: the `_defined_base_task`
flag, the set of classes marked with `is_task`, `TASK_REGISTER`, and the
`TaskInterfaceError`s raised so far. -/
structure RegState where
  definedBaseTask : Bool
  isTaskMarked : List String
  register : List String
  errors : List (String × List String)
deriving DecidableEq, Repr

/-- The state before `BaseTask` is defined. -/
def RegState.init : RegState := ⟨false, [], [], []⟩

/-- Python `hasattr(cls, 'is_task')`: the attribute is found on the class
or inherited from any ancestor previously marked by `Register.__new__`. -/
def hasIsTask (marked : List String) (c : PyClass) : Bool :=
  c.selfAndAncestors.any (fun a => marked.contains a.name)

/-- `Register.__new__(metacls, name, bases, namespace)`: the first class is
`BaseTask`; a class not inheriting `is_task` is a "public task" and gets
marked; any other class is interface-checked and, if the check passes,
appended to `TASK_REGISTER`.  A failing class raises (recorded in
`errors`) and is NOT registered.  Mirrors `tasks.py` lines 75-92. -/
def define_class (st : RegState) (c : PyClass) : RegState :=
  if st.definedBaseTask = false then
    { st with definedBaseTask := true }
  else if hasIsTask st.isTaskMarked c = false then
    { st with isTaskMarked := c.name :: st.isTaskMarked }
  else
    match check_interface c.name c.bases c.ns with
    | some err => { st with errors := st.errors ++ [err] }
    | none => { st with register := st.register ++ [c.name] }

/-- Define a sequence of classes (in definition order). -/
def define_all (cs : List PyClass) : RegState :=
  cs.foldl define_class RegState.init

/-! ## Observations and invariants used by the theorems -/

/-- How many times resource `r` was successfully opened in a trace. -/
def openCount (r : ResourceId) (tr : List Ev) : Nat :=
  tr.countP (fun e => match e with | .opened r2 _ => r2 == r | _ => false)

/-- How many times resource `r` was closed in a trace. -/
def closeCount (r : ResourceId) (tr : List Ev) : Nat :=
  tr.countP (fun e => match e with | .closed r2 => r2 == r | _ => false)

/-- Reachability invariant of the resource-manager/resource-class state:
opens and closes are balanced against the currently open handle; only the
active resource can hold an open handle; an active pair whose open
succeeded (`_opening_resource` cleared) has an open handle; while
`_opening_resource` is set no handle is open; and `self.resource` /
`self.config` are sentinel (or real references) together. -/
def Inv (w : World) : Prop :=
  (∀ r, openCount r w.trace =
      closeCount r w.trace + (if (w.handleOf r).isSome then 1 else 0)) ∧
  (∀ r, (w.handleOf r).isSome → w.rm.resource = .ref r) ∧
  (∀ r, w.rm.resource = .ref r → w.rm.openingResource = false →
      (w.handleOf r).isSome) ∧
  (w.rm.openingResource = true → ∀ r, w.handleOf r = none) ∧
  ((w.rm.resource = .sentinel ∧ w.rm.config = .sentinel) ∨
      (∃ r c, w.rm.resource = .ref r ∧ w.rm.config = .ref c))

/-- The failure record a run should produce, read off the per-task
outcomes: the failing tasks with their errors, in task-list order (which is
the order the failures occurred, since tasks run sequentially). -/
def failedSpec : List TaskDef → List Outcome → List (TaskId × Err)
  | t :: ts, o :: os =>
      (match o with | .failed e => [(t.id, e)] | _ => []) ++ failedSpec ts os
  | _, _ => []

/-- Two consecutive tasks requiring the same resource `r` with the same
configuration object `c`. -/
def pairTasks (r : ResourceId) (c : ConfigObj) : List TaskDef :=
  [ { id := 1, required_resource := some r, resource_config := some c,
      behavior := .ret 1 },
    { id := 2, required_resource := some r, resource_config := some c,
      behavior := .ret 2 } ]

/-! ## Concrete inputs used by the example parts of the theorems -/

/-- A configuration object for the examples. -/
def cfg0 : ConfigObj := ⟨0, []⟩

/-- Example environment: every resource opens successfully, no resource
requires configuration keys. -/
def envA : Env :=
  { defaultConfig := cfg0
    openSpec := fun _ _ => some 0
    reqConfigs := fun _ => []
    cfgAttr := fun _ => none }

/-- The spec's skip-semantics example: `T1` succeeds, `T2` raises, `T3` and
`T5` have `run_with_exceptions = False`, `T4` has
`run_with_exceptions = True`.  Each task is given its own resource so that
"the resource of a skipped task is not opened" is visible in the trace
(`T2` shares `T1`'s resource). -/
def tasksA : List TaskDef :=
  [ { id := 1, required_resource := some 10, behavior := .ret 1 },
    { id := 2, required_resource := some 10, behavior := .raiseErr 0 },
    { id := 3, required_resource := some 30, behavior := .ret 3 },
    { id := 4, required_resource := some 40, run_with_exceptions := true,
      behavior := .ret 4 },
    { id := 5, required_resource := some 50, behavior := .ret 5 } ]

/-- Environment in which opening resource `7` always fails. -/
def envB : Env :=
  { defaultConfig := cfg0
    openSpec := fun r _ => if r = 7 then none else some 0
    reqConfigs := fun _ => []
    cfgAttr := fun _ => none }

/-- Failed-open example: `T1` requires resource `7` (whose open fails);
`T2` requires the same resource with the same (default) configuration
reference and then accesses the resource's current handle. -/
def tasksB : List TaskDef :=
  [ { id := 1, required_resource := some 7, behavior := .ret 1 },
    { id := 2, required_resource := some 7, run_with_exceptions := true,
      behavior := .useResource 7 } ]

/-- Environment for the pre-flight examples: resource `1` requires key
`"a"`, resource `2` requires key `"b"`, resource `3` requires nothing, and
no key is set on the configuration. -/
def envC : Env :=
  { defaultConfig := cfg0
    openSpec := fun _ _ => some 0
    reqConfigs := fun r => if r = 1 then ["a"] else if r = 2 then ["b"] else []
    cfgAttr := fun _ => none }

/-- Three tasks requiring resources `1`, `2` and `3` respectively. -/
def tasksC : List TaskDef :=
  [ { id := 1, required_resource := some 1 },
    { id := 2, required_resource := some 2 },
    { id := 3, required_resource := some 3 } ]

/-- A failing task followed by an always-run task that reads the failed
task's output. -/
def tasksD : List TaskDef :=
  [ { id := 1, behavior := .raiseErr 0 },
    { id := 2, run_with_exceptions := true, behavior := .readOutput 1 } ]

/-- `BaseTask` as a bare class value. -/
def pyBaseTask : PyClass := .mk "BaseTask" [] []

/-- A plain (non-task) mixin class whose own dict marks `z` as
`REQUIRED_ATTRIBUTE`. -/
def pyMixinM : PyClass := .mk "M" [] [("z", true)]

/-- A "public task": a direct subclass of `BaseTask`, also inheriting the
mixin.  `Register.__new__` only marks it with `is_task` and does not
interface-check it. -/
def pyPub : PyClass := .mk "Pub" [pyBaseTask, pyMixinM] []

/-- A leaf task type subclassing the public task and providing nothing;
its ancestor `M` marks `z` required, but `z` is not in the own dict of its
direct base `Pub`. -/
def pyLeaf : PyClass := .mk "Leaf" [pyPub] []


end Bigrays

namespace Bigrays

/-! ## Theorems -/

/-- Association-list helper: looking up the key just prepended. -/
theorem lookup_cons_self {β : Type} (k : Nat) (b : β) (es : List (Nat × β)) :
    ((k, b) :: es).lookup k = some b := by
  simp [List.lookup_cons]

/-- Association-list helper: prepending a different key does not change a
lookup. -/
theorem lookup_cons_of_ne {β : Type} {a k : Nat} (h : a ≠ k) (b : β)
    (es : List (Nat × β)) : ((k, b) :: es).lookup a = es.lookup a := by
  simp [List.lookup_cons, beq_false_of_ne h]

theorem OutStore.WF.empty : OutStore.empty.WF := by
  constructor
  · intro k p h; simp [OutStore.empty] at h
  · intro k1 k2 p h; simp [OutStore.empty] at h

theorem OutStore.WF.get {s : OutStore} (hs : s.WF) (k : TaskId) :
    (s.get k).2.WF := by
  unfold OutStore.get
  cases hv : s.values.lookup k with
  | some v => exact hs
  | none =>
    cases hp : s.placeholders.lookup k with
    | some p => exact hs
    | none =>
      simp only
      obtain ⟨h1, h2⟩ := hs
      constructor
      · intro k1 p1 hl
        by_cases hk : k1 = k
        · subst hk
          rw [lookup_cons_self] at hl
          obtain rfl : s.nextPh = p1 := by simpa using hl
          refine ⟨Nat.lt_succ_self _, ?_⟩
          rw [lookup_cons_self, hv]
        · rw [lookup_cons_of_ne hk] at hl
          obtain ⟨hlt, hheap⟩ := h1 k1 p1 hl
          refine ⟨Nat.lt_succ_of_lt hlt, ?_⟩
          rw [lookup_cons_of_ne (Nat.ne_of_lt hlt)]
          exact hheap
      · intro k1 k2 p1 hl1 hl2
        by_cases hk1 : k1 = k <;> by_cases hk2 : k2 = k
        · rw [hk1, hk2]
        · subst hk1
          rw [lookup_cons_self] at hl1
          rw [lookup_cons_of_ne hk2] at hl2
          have heq : s.nextPh = p1 := by simpa using hl1
          obtain ⟨hlt, _⟩ := h1 k2 p1 hl2
          omega
        · subst hk2
          rw [lookup_cons_self] at hl2
          rw [lookup_cons_of_ne hk1] at hl1
          have heq : s.nextPh = p1 := by simpa using hl2
          obtain ⟨hlt, _⟩ := h1 k1 p1 hl1
          omega
        · rw [lookup_cons_of_ne hk1] at hl1
          rw [lookup_cons_of_ne hk2] at hl2
          exact h2 k1 k2 p1 hl1 hl2

theorem OutStore.WF.set {s : OutStore} (hs : s.WF) (k : TaskId) (v : Value) :
    (s.set k v).WF := by
  unfold OutStore.set
  obtain ⟨h1, h2⟩ := hs
  cases hp : s.placeholders.lookup k with
  | some p =>
    simp only
    refine ⟨?_, h2⟩
    intro k1 p1 hl
    by_cases hk : k1 = k
    · subst hk
      rw [hp] at hl
      have heq : p = p1 := by simpa using hl
      subst heq
      obtain ⟨hlt, _⟩ := h1 k1 p hp
      refine ⟨hlt, ?_⟩
      rw [lookup_cons_self, lookup_cons_self]
    · obtain ⟨hlt, hheap⟩ := h1 k1 p1 hl
      refine ⟨hlt, ?_⟩
      have hne : p1 ≠ p := fun hcon => hk (h2 k1 k p1 hl (hcon ▸ hp))
      rw [lookup_cons_of_ne hne, lookup_cons_of_ne hk]
      exact hheap
  | none =>
    simp only
    refine ⟨?_, h2⟩
    intro k1 p1 hl
    obtain ⟨hlt, hheap⟩ := h1 k1 p1 hl
    have hk : k1 ≠ k := by
      intro hcon
      rw [hcon, hp] at hl
      exact Option.noConfusion hl
    refine ⟨hlt, ?_⟩
    rw [lookup_cons_of_ne hk]
    exact hheap

/-- **C4** Placeholder store contract: reading a task's output before
completion yields a placeholder; a repeated read returns the same
placeholder instance; after the output is set to `v`, reading returns `v`
and the previously handed out placeholder observes `v`; reading the value
of a still-unresolved placeholder fails with the unresolved-reference
error. -/
theorem C4_placeholder_store_contract (s : OutStore) (k : TaskId) (v : Value)
    (hwf : s.WF) (hval : s.values.lookup k = none) :
    ∃ p s1, s.get k = (.ph p, s1) ∧
      s1.get k = (.ph p, s1) ∧
      s1.phValue p = .error .unresolvedPlaceholder ∧
      ((s1.set k v).get k).1 = .val v ∧
      (s1.set k v).phValue p = .ok v := by
  obtain ⟨h1, _⟩ := hwf
  cases hph : s.placeholders.lookup k with
  | some p =>
    have hget : s.get k = (.ph p, s) := by
      unfold OutStore.get
      rw [hval, hph]
    refine ⟨p, s, hget, hget, ?_, ?_, ?_⟩
    · unfold OutStore.phValue
      obtain ⟨_, hheap⟩ := h1 k p hph
      rw [hheap, hval]
    · unfold OutStore.get OutStore.set
      simp only [hph]
      rw [lookup_cons_self]
    · unfold OutStore.phValue OutStore.set
      simp only [hph]
      rw [lookup_cons_self]
  | none =>
    refine ⟨s.nextPh,
      { s with placeholders := (k, s.nextPh) :: s.placeholders,
               heap := (s.nextPh, none) :: s.heap,
               nextPh := s.nextPh + 1 }, ?_, ?_, ?_, ?_, ?_⟩
    · unfold OutStore.get
      rw [hval, hph]
    · unfold OutStore.get
      simp only
      rw [hval, lookup_cons_self]
    · unfold OutStore.phValue
      simp only
      rw [lookup_cons_self]
    · unfold OutStore.get OutStore.set
      simp only
      rw [lookup_cons_self, lookup_cons_self]
    · unfold OutStore.phValue OutStore.set
      simp only
      rw [lookup_cons_self, lookup_cons_self]

/-- **C4 witness**: the contract at a concrete store (`OutStore.empty`,
task `3`, value `7`). -/
theorem C4_placeholder_store_contract_witness :
    ∃ p s1, OutStore.empty.get 3 = (.ph p, s1) ∧
      s1.get 3 = (.ph p, s1) ∧
      s1.phValue p = .error .unresolvedPlaceholder ∧
      ((s1.set 3 7).get 3).1 = .val 7 ∧
      (s1.set 3 7).phValue p = .ok 7 :=
  C4_placeholder_store_contract OutStore.empty 3 7 OutStore.WF.empty (by decide)


/-! ### Trace counting and resource lifecycle machinery -/

theorem openCount_append (r : ResourceId) (t1 t2 : List Ev) :
    openCount r (t1 ++ t2) = openCount r t1 + openCount r t2 :=
  List.countP_append _ _ _

theorem closeCount_append (r : ResourceId) (t1 t2 : List Ev) :
    closeCount r (t1 ++ t2) = closeCount r t1 + closeCount r t2 :=
  List.countP_append _ _ _

theorem openCount_closed (r r0 : ResourceId) :
    openCount r [.closed r0] = 0 := by
  simp [openCount, List.countP_singleton]

theorem openCount_openFailed (r r0 : ResourceId) (c : Nat) :
    openCount r [.openFailed r0 c] = 0 := by
  simp [openCount, List.countP_singleton]

theorem openCount_opened_self (r : ResourceId) (c : Nat) :
    openCount r [.opened r c] = 1 := by
  simp [openCount, List.countP_singleton]

theorem openCount_opened_ne {r r0 : ResourceId} (h : r0 ≠ r) (c : Nat) :
    openCount r [.opened r0 c] = 0 := by
  simp [openCount, List.countP_singleton, h]

theorem closeCount_opened (r r0 : ResourceId) (c : Nat) :
    closeCount r [.opened r0 c] = 0 := by
  simp [closeCount, List.countP_singleton]

theorem closeCount_openFailed (r r0 : ResourceId) (c : Nat) :
    closeCount r [.openFailed r0 c] = 0 := by
  simp [closeCount, List.countP_singleton]

theorem closeCount_closed_self (r : ResourceId) :
    closeCount r [.closed r] = 1 := by
  simp [closeCount, List.countP_singleton]

theorem closeCount_closed_ne {r r0 : ResourceId} (h : r0 ≠ r) :
    closeCount r [.closed r0] = 0 := by
  simp [closeCount, List.countP_singleton, h]

theorem Inv.init : Inv World.init := by
  refine ⟨?_, ?_, ?_, ?_, ?_⟩
  · intro r; simp [World.init, World.handleOf, openCount, closeCount, RMState.init]
  · intro r h; simp [World.init, World.handleOf] at h
  · intro r h; simp [World.init, RMState.init] at h
  · intro h; simp [World.init, RMState.init] at h
  · left; simp [World.init, RMState.init]

/-- `_cleanup` under the reachability invariant: it never raises, returns
the ignore-flag `False`, leaves no handle open, resets (or leaves pristine)
the manager state, and does not touch the output store. -/
theorem cleanup_spec {w : World} (hw : Inv w) :
    ∃ w1, cleanup w = .ok (false, w1) ∧ Inv w1 ∧
      (∀ r, w1.handleOf r = none) ∧
      (w1.rm = RMState.init ∨ w1 = w) ∧
      w1.out = w.out := by
  obtain ⟨⟨sres, scfg, sop⟩, hs, sout, tr⟩ := w
  obtain ⟨hbal, hslot, hact, hopening, hpair⟩ := hw
  cases sres with
  | sentinel =>
      cases scfg with
      | ref c =>
          rcases hpair with ⟨h1, h2⟩ | ⟨r, c2, h1, h2⟩ <;> simp at h1 h2
      | sentinel =>
          have hnone : ∀ r2,
              World.handleOf ⟨⟨.sentinel, .sentinel, sop⟩, hs, sout, tr⟩ r2 = none := by
            intro r2
            cases hh : World.handleOf ⟨⟨.sentinel, .sentinel, sop⟩, hs, sout, tr⟩ r2 with
            | none => rfl
            | some v =>
                have hx := hslot r2 (by rw [hh]; rfl)
                simp at hx
          exact ⟨_, rfl, ⟨hbal, hslot, hact, hopening, Or.inl ⟨rfl, rfl⟩⟩,
            hnone, Or.inr rfl, rfl⟩
  | ref r =>
      cases scfg with
      | sentinel =>
          rcases hpair with ⟨h1, h2⟩ | ⟨r2, c2, h1, h2⟩ <;> simp at h1 h2
      | ref c =>
          cases sop with
          | true =>
              have hnone := hopening rfl
              refine ⟨_, rfl, ?_, hnone, Or.inl rfl, rfl⟩
              refine ⟨?_, ?_, ?_, ?_, ?_⟩
              · intro r2
                have hb := hbal r2
                rw [hnone r2] at hb
                rw [show World.handleOf
                    ⟨RMState.init, hs, sout, tr⟩ r2 =
                    World.handleOf ⟨⟨.ref r, .ref c, true⟩, hs, sout, tr⟩ r2 from rfl,
                  hnone r2]
                exact hb
              · intro r2 h2
                rw [show World.handleOf
                    ⟨RMState.init, hs, sout, tr⟩ r2 =
                    World.handleOf ⟨⟨.ref r, .ref c, true⟩, hs, sout, tr⟩ r2 from rfl,
                  hnone r2] at h2
                simp at h2
              · intro r2 h2
                simp [RMState.init] at h2
              · intro h2
                simp [RMState.init] at h2
              · left
                exact ⟨rfl, rfl⟩
          | false =>
              have hsome := hact r rfl rfl
              obtain ⟨v, hv⟩ := Option.isSome_iff_exists.mp hsome
              have hnone2 : ∀ r2, r2 ≠ r → List.lookup r2 hs = none ∨
                  List.lookup r2 hs = some none := by
                intro r2 hr2
                cases hl : hs.lookup r2 with
                | none => exact Or.inl rfl
                | some x =>
                    cases x with
                    | none => exact Or.inr rfl
                    | some v2 =>
                        have hx : (World.handleOf
                            ⟨⟨.ref r, .ref c, false⟩, hs, sout, tr⟩ r2).isSome = true := by
                          simp [World.handleOf, hl]
                        have := hslot r2 hx
                        simp at this
                        exact absurd this.symm hr2
              have hl : hs.lookup r = some (some v) := by
                unfold World.handleOf at hv
                cases hx : hs.lookup r with
                | none => rw [hx] at hv; exact Option.noConfusion hv
                | some x => rw [hx] at hv; exact congrArg some hv
              have hcl : cleanup ⟨⟨.ref r, .ref c, false⟩, hs, sout, tr⟩ =
                  .ok (false, ⟨RMState.init, (r, none) :: hs, sout, tr ++ [.closed r]⟩) := by
                simp only [cleanup, resource_close, World.handleOf, hl]
                rfl
              have hnone : ∀ r2, World.handleOf
                  ⟨RMState.init, (r, none) :: hs, sout, tr ++ [.closed r]⟩ r2 = none := by
                intro r2
                by_cases hr2 : r2 = r
                · subst hr2
                  simp [World.handleOf, lookup_cons_self]
                · unfold World.handleOf
                  simp only
                  rw [lookup_cons_of_ne hr2]
                  rcases hnone2 r2 hr2 with h | h <;> rw [h]
              refine ⟨_, hcl, ?_, hnone, Or.inl rfl, rfl⟩
              refine ⟨?_, ?_, ?_, ?_, ?_⟩
              · intro r2
                rw [hnone r2]
                show openCount r2 (tr ++ [.closed r]) =
                  closeCount r2 (tr ++ [.closed r]) + 0
                rw [openCount_append, closeCount_append]
                by_cases hr2 : r2 = r
                · subst hr2
                  have hb := hbal r2
                  rw [hv] at hb
                  simp at hb
                  rw [openCount_closed, closeCount_closed_self]
                  omega
                · have hb := hbal r2
                  have hwn : World.handleOf
                      ⟨⟨.ref r, .ref c, false⟩, hs, sout, tr⟩ r2 = none := by
                    unfold World.handleOf
                    simp only
                    rcases hnone2 r2 hr2 with h | h <;> rw [h]
                  rw [hwn] at hb
                  simp at hb
                  rw [openCount_closed, closeCount_closed_ne (fun hcon => hr2 hcon.symm)]
                  omega
              · intro r2 h2
                rw [hnone r2] at h2
                simp at h2
              · intro r2 h2
                simp [RMState.init] at h2
              · intro h2
                simp [RMState.init] at h2
              · left
                exact ⟨rfl, rfl⟩


/-- `_open_resource` on a freshly cleaned state whose active pair was just
recorded as `(r, c)`: computation of both possible results. -/
theorem open_resource_inner_eq (env : Env) (r : ResourceId) (c : ConfigObj)
    (b : Bool) (hs : List (ResourceId × Option Value)) (sout : OutStore)
    (tr : List Ev) :
    (∀ h, env.openSpec r c = some h →
      open_resource_inner env r c ⟨⟨.ref r, .ref c, b⟩, hs, sout, tr⟩ =
        .ok ⟨⟨.ref r, .ref c, false⟩, (r, some h) :: hs, sout,
             tr ++ [.opened r c.ref]⟩) ∧
    (env.openSpec r c = none →
      open_resource_inner env r c ⟨⟨.ref r, .ref c, b⟩, hs, sout, tr⟩ =
        .error (.resourceError,
          ⟨⟨.ref r, .ref c, true⟩, hs, sout, tr ++ [.openFailed r c.ref]⟩)) := by
  constructor
  · intro h hspec
    simp only [open_resource_inner, resource_open, hspec]
  · intro hspec
    simp only [open_resource_inner, resource_open, hspec]

/-- The invariant after a successful open of `(r, c)` from a state with no
open handle and balanced trace. -/
theorem inv_after_open_ok (r : ResourceId) (c : ConfigObj) (h : Value)
    (hs : List (ResourceId × Option Value)) (sout : OutStore) (tr : List Ev)
    (hnone : ∀ r2, (World.handleOf ⟨RMState.init, hs, sout, tr⟩ r2) = none)
    (hbal : ∀ r2, openCount r2 tr = closeCount r2 tr) :
    Inv ⟨⟨.ref r, .ref c, false⟩, (r, some h) :: hs, sout,
         tr ++ [.opened r c.ref]⟩ := by
  refine ⟨?_, ?_, ?_, ?_, ?_⟩
  · intro r2
    by_cases hr2 : r2 = r
    · subst hr2
      rw [show World.handleOf
          ⟨⟨.ref r2, .ref c, false⟩, (r2, some h) :: hs, sout,
           tr ++ [.opened r2 c.ref]⟩ r2 = some h by
        simp [World.handleOf, lookup_cons_self]]
      rw [openCount_append, closeCount_append, openCount_opened_self,
        closeCount_opened, hbal r2]
      simp
    · rw [show World.handleOf
          ⟨⟨.ref r, .ref c, false⟩, (r, some h) :: hs, sout,
           tr ++ [.opened r c.ref]⟩ r2 =
          World.handleOf ⟨RMState.init, hs, sout, tr⟩ r2 by
        unfold World.handleOf
        simp only
        rw [lookup_cons_of_ne hr2]]
      rw [hnone r2]
      rw [openCount_append, closeCount_append,
        openCount_opened_ne (fun hcon => hr2 hcon.symm), closeCount_opened,
        hbal r2]
      simp
  · intro r2 h2
    by_cases hr2 : r2 = r
    · subst hr2; rfl
    · rw [show World.handleOf
          ⟨⟨.ref r, .ref c, false⟩, (r, some h) :: hs, sout,
           tr ++ [.opened r c.ref]⟩ r2 =
          World.handleOf ⟨RMState.init, hs, sout, tr⟩ r2 by
        unfold World.handleOf
        simp only
        rw [lookup_cons_of_ne hr2]] at h2
      rw [hnone r2] at h2
      simp at h2
  · intro r2 h2 _
    have hr2 : r = r2 := by
      simpa [Slot.ref.injEq] using h2
    subst hr2
    simp [World.handleOf, lookup_cons_self]
  · intro h2
    simp at h2
  · right
    exact ⟨r, c, rfl, rfl⟩

/-- The invariant after a failed open of `(r, c)` from a state with no open
handle and balanced trace: the pair stays recorded, `_opening_resource`
remains set. -/
theorem inv_after_open_fail (r : ResourceId) (c : ConfigObj)
    (hs : List (ResourceId × Option Value)) (sout : OutStore) (tr : List Ev)
    (hnone : ∀ r2, (World.handleOf ⟨RMState.init, hs, sout, tr⟩ r2) = none)
    (hbal : ∀ r2, openCount r2 tr = closeCount r2 tr) :
    Inv ⟨⟨.ref r, .ref c, true⟩, hs, sout, tr ++ [.openFailed r c.ref]⟩ := by
  refine ⟨?_, ?_, ?_, ?_, ?_⟩
  · intro r2
    rw [show World.handleOf
        ⟨⟨.ref r, .ref c, true⟩, hs, sout, tr ++ [.openFailed r c.ref]⟩ r2 =
        World.handleOf ⟨RMState.init, hs, sout, tr⟩ r2 from rfl, hnone r2]
    rw [openCount_append, closeCount_append, openCount_openFailed,
      closeCount_openFailed, hbal r2]
    simp
  · intro r2 h2
    rw [show World.handleOf
        ⟨⟨.ref r, .ref c, true⟩, hs, sout, tr ++ [.openFailed r c.ref]⟩ r2 =
        World.handleOf ⟨RMState.init, hs, sout, tr⟩ r2 from rfl, hnone r2] at h2
    simp at h2
  · intro r2 _ h3
    simp at h3
  · intro _ r2
    rw [show World.handleOf
        ⟨⟨.ref r, .ref c, true⟩, hs, sout, tr ++ [.openFailed r c.ref]⟩ r2 =
        World.handleOf ⟨RMState.init, hs, sout, tr⟩ r2 from rfl, hnone r2]
  · right
    exact ⟨r, c, rfl, rfl⟩

/-- `open_resource` (after configuration substitution) preserves the
invariant and never touches the output store, whether it succeeds or
raises. -/
theorem open_resource_core_inv (env : Env) (r? : Option ResourceId)
    (c : ConfigObj) {w : World} (hw : Inv w) :
    (∀ w1, open_resource_core env r? c w = .ok w1 → Inv w1 ∧ w1.out = w.out) ∧
    (∀ e w1, open_resource_core env r? c w = .error (e, w1) →
        Inv w1 ∧ w1.out = w.out) := by
  obtain ⟨wc, hcl, hInvc, hnonec, _, houtc⟩ := cleanup_spec hw
  have hbalc : ∀ r2, openCount r2 wc.trace = closeCount r2 wc.trace := by
    intro r2
    have hb := hInvc.1 r2
    rw [hnonec r2] at hb
    simpa using hb
  by_cases hsame : sameActivePair w r? c = true
  · have heq : open_resource_core env r? c w = .ok w := by
      unfold open_resource_core
      rw [hsame]
      rfl
    rw [heq]
    constructor
    · intro w1 h1
      injection h1 with h1
      subst h1
      exact ⟨hw, rfl⟩
    · intro e w1 h1
      exact Except.noConfusion h1
  · have hsame2 : sameActivePair w r? c = false := by
      revert hsame
      cases sameActivePair w r? c <;> simp
    cases r? with
    | none =>
        have heq : open_resource_core env none c w = .ok wc := by
          unfold open_resource_core
          rw [hsame2, hcl]
          rfl
        rw [heq]
        constructor
        · intro w1 h1
          injection h1 with h1
          subst h1
          exact ⟨hInvc, houtc⟩
        · intro e w1 h1
          exact Except.noConfusion h1
    | some r =>
        obtain ⟨wrm, whs, wout, wtr⟩ := wc
        have heq : open_resource_core env (some r) c w =
            open_resource_inner env r c
              ⟨⟨.ref r, .ref c, wrm.openingResource⟩, whs, wout, wtr⟩ := by
          unfold open_resource_core
          rw [hsame2, hcl]
          rfl
        cases hspec : env.openSpec r c with
        | some h =>
            rw [heq, (open_resource_inner_eq env r c wrm.openingResource whs
              wout wtr).1 h hspec]
            constructor
            · intro w1 h1
              injection h1 with h1
              subst h1
              exact ⟨inv_after_open_ok r c h whs wout wtr
                (fun r2 => hnonec r2) (fun r2 => hbalc r2), houtc⟩
            · intro e w1 h1
              exact Except.noConfusion h1
        | none =>
            rw [heq, (open_resource_inner_eq env r c wrm.openingResource whs
              wout wtr).2 hspec]
            constructor
            · intro w1 h1
              exact Except.noConfusion h1
            · intro e w1 h1
              injection h1 with h1
              injection h1 with h1a h1b
              subst h1a
              subst h1b
              exact ⟨inv_after_open_fail r c whs wout wtr
                (fun r2 => hnonec r2) (fun r2 => hbalc r2), houtc⟩

/-- `open_resource` preserves the invariant and the output store. -/
theorem open_resource_inv (env : Env) (r? : Option ResourceId)
    (c? : Option ConfigObj) {w : World} (hw : Inv w) :
    (∀ w1, open_resource env r? c? w = .ok w1 → Inv w1 ∧ w1.out = w.out) ∧
    (∀ e w1, open_resource env r? c? w = .error (e, w1) →
        Inv w1 ∧ w1.out = w.out) := by
  unfold open_resource
  exact open_resource_core_inv env r? _ hw


/-- Two worlds with the same manager state, handles and trace satisfy the
invariant together (the invariant does not read the output store). -/
theorem Inv_of_same_parts {x y : World} (hrm : x.rm = y.rm)
    (hh : x.handles = y.handles) (htr : x.trace = y.trace) (hy : Inv y) :
    Inv x := by
  obtain ⟨b1, b2, b3, b4, b5⟩ := hy
  have hof : ∀ r, x.handleOf r = y.handleOf r := by
    intro r
    unfold World.handleOf
    rw [hh]
  refine ⟨?_, ?_, ?_, ?_, ?_⟩
  · intro r
    rw [htr, hof r]
    exact b1 r
  · intro r h
    rw [hof r] at h
    rw [hrm]
    exact b2 r h
  · intro r h1 h2
    rw [hrm] at h1 h2
    rw [hof r]
    exact b3 r h1 h2
  · intro h1 r
    rw [hrm] at h1
    rw [hof r]
    exact b4 h1 r
  · rw [hrm]
    exact b5

/-- A task body (`run()`) touches only the output store. -/
theorem run_behavior_frame (b : TaskBehavior) (w : World) :
    (run_behavior b w).2.rm = w.rm ∧ (run_behavior b w).2.handles = w.handles ∧
    (run_behavior b w).2.trace = w.trace := by
  unfold run_behavior
  cases b <;> repeat' split
  all_goals exact ⟨rfl, rfl, rfl⟩

/-- A task body preserves the invariant. -/
theorem run_behavior_inv {b : TaskBehavior} {w : World} (hw : Inv w) :
    Inv (run_behavior b w).2 := by
  obtain ⟨h1, h2, h3⟩ := run_behavior_frame b w
  exact Inv_of_same_parts h1 h2 h3 hw

/-- Running one task preserves the invariant, whatever its outcome. -/
theorem run_task_inv (env : Env) (t : TaskDef) {w : World} (hw : Inv w) :
    Inv (run_task env t w).2 := by
  unfold run_task
  cases hopen : open_resource env t.required_resource t.resource_config w with
  | error ew =>
      obtain ⟨e, w1⟩ := ew
      exact ((open_resource_inv env t.required_resource t.resource_config
        hw).2 e w1 hopen).1
  | ok w1 =>
      have hInv1 : Inv w1 :=
        ((open_resource_inv env t.required_resource t.resource_config hw).1
          w1 hopen).1
      show Inv (match run_behavior t.behavior w1 with
        | (.error e, w2) => ((some e : Option Err), w2)
        | (.ok v, w2) => (none, { w2 with out := w2.out.set t.id v })).2
      cases hb : run_behavior t.behavior w1 with
      | mk res w2 =>
          have hInv2 : Inv w2 := by
            have := run_behavior_inv (b := t.behavior) hInv1
            rw [hb] at this
            exact this
          cases res with
          | error e => exact hInv2
          | ok v => exact Inv_of_same_parts rfl rfl rfl hInv2

/-- The harness preserves the invariant. -/
theorem harness_inv (env : Env) :
    ∀ (ts : List TaskDef) (failed : List (TaskId × Err)) {w : World},
      Inv w → Inv (run_tasks_with_error_harness env ts failed w).1 := by
  intro ts
  induction ts with
  | nil => intro failed w hw; exact hw
  | cons t rest ih =>
      intro failed w hw
      unfold run_tasks_with_error_harness
      by_cases hsk : failed ≠ [] ∧ t.run_with_exceptions = false
      · rw [if_pos hsk]
        exact ih failed hw
      · rw [if_neg hsk]
        cases hrt : run_task env t w with
        | mk o w1 =>
            have hInv1 : Inv w1 := by
              have := run_task_inv env t hw
              rw [hrt] at this
              exact this
            cases o with
            | none => exact ih failed hInv1
            | some e => exact ih (failed ++ [(t.id, e)]) hInv1

/-- When the pre-flight check passes, `bigrays_run` is: run the harness
from the fresh state, close the active resource at scope exit (this close
never raises, by the invariant), and raise the aggregate error exactly when
the failure record is non-empty. -/
theorem bigrays_run_eq (env : Env) (ts : List TaskDef)
    (hc : check_configs env (define_required_resources ts) = none) :
    ∃ w1, cleanup (run_tasks_with_error_harness env ts [] World.init).1 =
        .ok (false, w1) ∧ Inv w1 ∧
      (bigrays_run env ts).world = w1 ∧
      (bigrays_run env ts).failed =
        (run_tasks_with_error_harness env ts [] World.init).2.1 ∧
      (bigrays_run env ts).outcomes =
        (run_tasks_with_error_harness env ts [] World.init).2.2 ∧
      ((run_tasks_with_error_harness env ts [] World.init).2.1 = [] →
        (bigrays_run env ts).result = .ok ()) ∧
      ((run_tasks_with_error_harness env ts [] World.init).2.1 ≠ [] →
        (bigrays_run env ts).result = .error (.bigRaysError
          ⟨(run_tasks_with_error_harness env ts [] World.init).2.1.map Prod.fst,
           (run_tasks_with_error_harness env ts [] World.init).2.1.map Prod.snd⟩)) := by
  have hInvh : Inv (run_tasks_with_error_harness env ts [] World.init).1 :=
    harness_inv env ts [] Inv.init
  obtain ⟨w1, hcl, hInv1, _, _, _⟩ := cleanup_spec hInvh
  have heq : bigrays_run env ts =
      (if (run_tasks_with_error_harness env ts [] World.init).2.1.isEmpty then
        { result := .ok (), world := w1,
          failed := (run_tasks_with_error_harness env ts [] World.init).2.1,
          outcomes := (run_tasks_with_error_harness env ts [] World.init).2.2 }
      else
        { result := .error (.bigRaysError
            ⟨(run_tasks_with_error_harness env ts [] World.init).2.1.map Prod.fst,
             (run_tasks_with_error_harness env ts [] World.init).2.1.map Prod.snd⟩),
          world := w1,
          failed := (run_tasks_with_error_harness env ts [] World.init).2.1,
          outcomes := (run_tasks_with_error_harness env ts [] World.init).2.2 }) := by
    have h0 : bigrays_run env ts =
        bigrays_run_post (run_tasks_with_error_harness env ts [] World.init) := by
      unfold bigrays_run
      rw [hc]
    rw [h0]
    unfold bigrays_run_post
    rw [hcl]
    dsimp only
    by_cases hf : (run_tasks_with_error_harness env ts [] World.init).2.1.isEmpty
    · rw [if_pos hf, if_pos hf]
    · rw [if_neg hf, if_neg hf, if_neg (by simp)]
  refine ⟨w1, hcl, hInv1, ?_, ?_, ?_, ?_, ?_⟩ <;> rw [heq]
  · by_cases hf : (run_tasks_with_error_harness env ts [] World.init).2.1.isEmpty
    · rw [if_pos hf]
    · rw [if_neg hf]
  · by_cases hf : (run_tasks_with_error_harness env ts [] World.init).2.1.isEmpty
    · rw [if_pos hf]
    · rw [if_neg hf]
  · by_cases hf : (run_tasks_with_error_harness env ts [] World.init).2.1.isEmpty
    · rw [if_pos hf]
    · rw [if_neg hf]
  · intro hnil
    rw [if_pos (by rw [hnil]; rfl)]
  · intro hne
    rw [if_neg (by simpa [List.isEmpty_iff] using hne)]


/-- Harness step: skip the head task (a failure has occurred and the task
is not exempt). -/
theorem harness_cons_skip (env : Env) (t : TaskDef) (rest : List TaskDef)
    (failed : List (TaskId × Err)) (w : World)
    (h1 : failed ≠ []) (h2 : t.run_with_exceptions = false) :
    run_tasks_with_error_harness env (t :: rest) failed w =
      ((run_tasks_with_error_harness env rest failed w).1,
       (run_tasks_with_error_harness env rest failed w).2.1,
       .skipped :: (run_tasks_with_error_harness env rest failed w).2.2) := by
  conv_lhs => unfold run_tasks_with_error_harness
  rw [if_pos ⟨h1, h2⟩]

/-- Harness step: the head task runs and succeeds. -/
theorem harness_cons_ok (env : Env) (t : TaskDef) (rest : List TaskDef)
    (failed : List (TaskId × Err)) (w w1 : World)
    (hok : run_task env t w = (none, w1))
    (hrun : ¬(failed ≠ [] ∧ t.run_with_exceptions = false)) :
    run_tasks_with_error_harness env (t :: rest) failed w =
      ((run_tasks_with_error_harness env rest failed w1).1,
       (run_tasks_with_error_harness env rest failed w1).2.1,
       .ok :: (run_tasks_with_error_harness env rest failed w1).2.2) := by
  conv_lhs => unfold run_tasks_with_error_harness
  rw [if_neg hrun, hok]

/-- Harness step: the head task runs and fails; it is appended to the
failure record and the run continues. -/
theorem harness_cons_fail (env : Env) (t : TaskDef) (rest : List TaskDef)
    (failed : List (TaskId × Err)) (w w1 : World) (e : Err)
    (hfail : run_task env t w = (some e, w1))
    (hrun : ¬(failed ≠ [] ∧ t.run_with_exceptions = false)) :
    run_tasks_with_error_harness env (t :: rest) failed w =
      ((run_tasks_with_error_harness env rest (failed ++ [(t.id, e)]) w1).1,
       (run_tasks_with_error_harness env rest (failed ++ [(t.id, e)]) w1).2.1,
       .failed e ::
         (run_tasks_with_error_harness env rest (failed ++ [(t.id, e)]) w1).2.2) := by
  conv_lhs => unfold run_tasks_with_error_harness
  rw [if_neg hrun, hfail]

/-- **C7** Close protocol: calling `close()` on a resource with no open

handle fails with `ResourceError`; and closes never outnumber successful
opens in a whole run's trace — in particular a failed `open` attempt (an
`openFailed` event) never gets a matching close, neither on a later
resource switch nor at run-scope exit. -/
theorem C7_close_protocol :
    (∀ (w : World) (r : ResourceId), w.handleOf r = none →
        resource_close r w = .error (.resourceError, w)) ∧
    (∀ (env : Env) (ts : List TaskDef) (r : ResourceId),
        closeCount r (bigrays_run env ts).world.trace ≤
        openCount r (bigrays_run env ts).world.trace) := by
  constructor
  · intro w r h
    unfold resource_close
    rw [h]
  · intro env ts r
    cases hc : check_configs env (define_required_resources ts) with
    | some err =>
        obtain ⟨rsrc, missing⟩ := err
        have heq : bigrays_run env ts =
            { result := .error (.configurationError rsrc missing),
              world := World.init, failed := [], outcomes := [] } := by
          unfold bigrays_run
          rw [hc]
        rw [heq]
        exact Nat.le_refl 0
    | none =>
        obtain ⟨w1, hcl, hInv1, hw, _, _, _, _⟩ := bigrays_run_eq env ts hc
        rw [hw]
        have hb := hInv1.1 r
        by_cases hh : (w1.handleOf r).isSome = true
        · rw [if_pos hh] at hb
          omega
        · rw [if_neg hh] at hb
          omega

/-- **C7 witness**: closing the never-opened resource `5` in the fresh
state raises `ResourceError`, and the close/open count bound at the
concrete failed-open run `envB`/`tasksB`. -/
theorem C7_close_protocol_witness :
    resource_close 5 World.init = .error (.resourceError, World.init) ∧
    closeCount 7 (bigrays_run envB tasksB).world.trace ≤
      openCount 7 (bigrays_run envB tasksB).world.trace :=
  ⟨C7_close_protocol.1 World.init 5 rfl, C7_close_protocol.2 envB tasksB 7⟩

/-- **C3** Resource reuse by reference identity: (1) `open_resource` with
the same resource reference and same configuration reference as the active
pair is a no-op; (2) if either reference differs — `c2 ≠ c` includes
configurations with identical fields but a different reference — the active
resource is closed once and the new pair is opened; (3) two consecutive
tasks requiring the same resource with the same configuration object
produce exactly one open and one (eventual, at scope exit) close. -/
theorem C3_resource_reuse_reference_identity :
    (∀ (env : Env) (r : ResourceId) (c : ConfigObj) (w : World),
        w.rm.resource = .ref r → w.rm.config = .ref c →
        open_resource env (some r) (some c) w = .ok w) ∧
    (∀ (env : Env) (r r2 : ResourceId) (c c2 : ConfigObj) (h h2 : Value)
        (w : World),
        w.rm = ⟨.ref r, .ref c, false⟩ →
        w.handleOf r = some h →
        (r2 ≠ r ∨ c2 ≠ c) →
        env.openSpec r2 c2 = some h2 →
        ∃ w1, open_resource env (some r2) (some c2) w = .ok w1 ∧
          w1.trace = w.trace ++ [.closed r, .opened r2 c2.ref] ∧
          w1.rm = ⟨.ref r2, .ref c2, false⟩ ∧
          w1.handleOf r2 = some h2 ∧
          w1.out = w.out) ∧
    (∀ (env : Env) (r : ResourceId) (c : ConfigObj) (h : Value),
        env.openSpec r c = some h →
        check_configs env (define_required_resources (pairTasks r c)) = none →
        (bigrays_run env (pairTasks r c)).world.trace =
          [.opened r c.ref, .closed r]) := by
  refine ⟨?_, ?_, ?_⟩
  · intro env r c w hr hc
    show open_resource_core env (some r) c w = .ok w
    unfold open_resource_core
    have hsame : sameActivePair w (some r) c = true := by
      unfold sameActivePair
      rw [hr, hc]
      simp
    rw [hsame]
    rfl
  · intro env r r2 c c2 h h2 w hrm hh hne hspec
    obtain ⟨wrm, whs, wout, wtr⟩ := w
    have hrm2 : wrm = ⟨.ref r, .ref c, false⟩ := hrm
    subst hrm2
    have hl : whs.lookup r = some (some h) := by
      unfold World.handleOf at hh
      cases hx : whs.lookup r with
      | none => rw [hx] at hh; exact Option.noConfusion hh
      | some x => rw [hx] at hh; exact congrArg some hh
    have hcl : cleanup ⟨⟨.ref r, .ref c, false⟩, whs, wout, wtr⟩ =
        .ok (false, ⟨RMState.init, (r, none) :: whs, wout,
          wtr ++ [.closed r]⟩) := by
      simp only [cleanup, resource_close, World.handleOf, hl]
      rfl
    have hsame : sameActivePair ⟨⟨.ref r, .ref c, false⟩, whs, wout, wtr⟩
        (some r2) c2 = false := by
      unfold sameActivePair
      rcases hne with hne | hne <;> simp [beq_false_of_ne hne]
    have heq : open_resource env (some r2) (some c2)
        ⟨⟨.ref r, .ref c, false⟩, whs, wout, wtr⟩ =
        open_resource_inner env r2 c2
          ⟨⟨.ref r2, .ref c2, false⟩, (r, none) :: whs, wout,
           wtr ++ [.closed r]⟩ := by
      show open_resource_core env (some r2) c2
          ⟨⟨.ref r, .ref c, false⟩, whs, wout, wtr⟩ = _
      unfold open_resource_core
      rw [hsame, hcl]
      rfl
    rw [heq, (open_resource_inner_eq env r2 c2 false ((r, none) :: whs) wout
      (wtr ++ [Ev.closed r])).1 h2 hspec]
    refine ⟨_, rfl, ?_, rfl, ?_, rfl⟩
    · rw [List.append_assoc]
      rfl
    · simp [World.handleOf, lookup_cons_self]
  · intro env r c h hspec hc
    have h1 : open_resource env (some r) (some c) World.init =
        .ok ⟨⟨.ref r, .ref c, false⟩, [(r, some h)], OutStore.empty,
             [.opened r c.ref]⟩ := by
      show open_resource_core env (some r) c World.init = _
      unfold open_resource_core
      have hsame : sameActivePair World.init (some r) c = false := rfl
      rw [hsame]
      have hcl : cleanup World.init = .ok (false, World.init) := rfl
      rw [hcl]
      have heq2 := (open_resource_inner_eq env r c false [] OutStore.empty
        []).1 h hspec
      exact heq2
    have ht1 : run_task env
        { id := 1, required_resource := some r, resource_config := some c,
          behavior := .ret 1 } World.init =
        (none, ⟨⟨.ref r, .ref c, false⟩, [(r, some h)],
          OutStore.empty.set 1 1, [.opened r c.ref]⟩) := by
      unfold run_task
      rw [h1]
      rfl
    have hsame2 : sameActivePair
        ⟨⟨.ref r, .ref c, false⟩, [(r, some h)], OutStore.empty.set 1 1,
         [.opened r c.ref]⟩ (some r) c = true := by
      unfold sameActivePair
      simp
    have h2 : open_resource env (some r) (some c)
        ⟨⟨.ref r, .ref c, false⟩, [(r, some h)], OutStore.empty.set 1 1,
         [.opened r c.ref]⟩ =
        .ok ⟨⟨.ref r, .ref c, false⟩, [(r, some h)], OutStore.empty.set 1 1,
          [.opened r c.ref]⟩ := by
      show open_resource_core env (some r) c _ = _
      unfold open_resource_core
      rw [hsame2]
      rfl
    have ht2 : run_task env
        { id := 2, required_resource := some r, resource_config := some c,
          behavior := .ret 2 } ⟨⟨.ref r, .ref c, false⟩, [(r, some h)],
          OutStore.empty.set 1 1, [.opened r c.ref]⟩ =
        (none, ⟨⟨.ref r, .ref c, false⟩, [(r, some h)],
          (OutStore.empty.set 1 1).set 2 2, [.opened r c.ref]⟩) := by
      unfold run_task
      rw [h2]
      rfl
    have hh : run_tasks_with_error_harness env (pairTasks r c) [] World.init =
        (⟨⟨.ref r, .ref c, false⟩, [(r, some h)],
          (OutStore.empty.set 1 1).set 2 2, [.opened r c.ref]⟩, [],
         [.ok, .ok]) := by
      unfold pairTasks
      rw [harness_cons_ok env _ _ [] World.init _ ht1 (by simp)]
      rw [harness_cons_ok env _ _ [] _ _ ht2 (by simp)]
      rfl
    have h0 : bigrays_run env (pairTasks r c) =
        bigrays_run_post (run_tasks_with_error_harness env (pairTasks r c)
          [] World.init) := by
      unfold bigrays_run
      rw [hc]
    rw [h0, hh]
    have hclf : cleanup ⟨⟨.ref r, .ref c, false⟩, [(r, some h)],
        (OutStore.empty.set 1 1).set 2 2, [.opened r c.ref]⟩ =
        .ok (false, ⟨RMState.init, (r, none) :: [(r, some h)],
          (OutStore.empty.set 1 1).set 2 2,
          [.opened r c.ref] ++ [.closed r]⟩) := by
      simp only [cleanup, resource_close, World.handleOf, lookup_cons_self]
      rfl
    unfold bigrays_run_post
    rw [hclf]
    rfl

/-- **C3 witness**: the three parts at concrete inputs — a no-op reuse on
an active pair, a close-then-reopen forced by a configuration object with
identical fields but a different reference, and the one-open-one-close
two-task run. -/
theorem C3_resource_reuse_reference_identity_witness :
    (open_resource envA (some 10) (some cfg0)
      ⟨⟨.ref 10, .ref cfg0, false⟩, [(10, some 0)], OutStore.empty, []⟩ =
      .ok ⟨⟨.ref 10, .ref cfg0, false⟩, [(10, some 0)], OutStore.empty, []⟩) ∧
    (∃ w1, open_resource envA (some 10) (some ⟨1, []⟩)
      ⟨⟨.ref 10, .ref cfg0, false⟩, [(10, some 0)], OutStore.empty, []⟩ =
        .ok w1 ∧
      w1.trace = [] ++ [.closed 10, .opened 10 1] ∧
      w1.rm = ⟨.ref 10, .ref (⟨1, []⟩ : ConfigObj), false⟩ ∧
      w1.handleOf 10 = some 0 ∧
      w1.out = OutStore.empty) ∧
    (bigrays_run envA (pairTasks 10 cfg0)).world.trace =
      [.opened 10 0, .closed 10] := by
  refine ⟨?_, ?_, ?_⟩
  · exact C3_resource_reuse_reference_identity.1 envA 10 cfg0 _ rfl rfl
  · have hw := C3_resource_reuse_reference_identity.2.1 envA 10 10 cfg0
      ⟨1, []⟩ 0 0
      ⟨⟨.ref 10, .ref cfg0, false⟩, [(10, some 0)], OutStore.empty, []⟩
      rfl rfl (Or.inr (by decide)) rfl
    exact hw
  · exact C3_resource_reuse_reference_identity.2.2 envA 10 cfg0 0 rfl rfl


/-- **C9** Failed opens are not retried: a failed open from the pristine
state records `(r, c)` as the active pair with `_opening_resource` left
set; a second `open_resource` with the same two references then satisfies
the identity check and returns as a no-op (no new open attempt, no state
change); no handle is open, so accessing the resource's current handle
raises the "no opened resource" error.  The concrete run `tasksB` shows the
end-to-end behaviour: one `openFailed` event only, and the second task —
which asked for the resource to be ensured — fails with
`noOpenedResource`. -/
theorem C9_failed_open_not_retried :
    (∀ (env : Env) (r : ResourceId) (c : ConfigObj),
        env.openSpec r c = none →
        open_resource env (some r) (some c) World.init =
          .error (.resourceError,
            ⟨⟨.ref r, .ref c, true⟩, [], OutStore.empty,
             [.openFailed r c.ref]⟩)) ∧
    (∀ (env : Env) (r : ResourceId) (c : ConfigObj) (w : World),
        w.rm.resource = .ref r → w.rm.config = .ref c →
        open_resource env (some r) (some c) w = .ok w) ∧
    (∀ (w : World) (r : ResourceId), w.handleOf r = none →
        resource_of r w = .error .noOpenedResource) ∧
    ((bigrays_run envB tasksB).outcomes =
        [.failed .resourceError, .failed .noOpenedResource] ∧
     (bigrays_run envB tasksB).world.trace = [.openFailed 7 0] ∧
     (bigrays_run envB tasksB).failed =
        [(1, .resourceError), (2, .noOpenedResource)]) := by
  refine ⟨?_, ?_, ?_, ?_, ?_, ?_⟩
  · intro env r c hspec
    show open_resource_core env (some r) c World.init = _
    unfold open_resource_core
    have hsame : sameActivePair World.init (some r) c = false := rfl
    rw [hsame]
    have hcl : cleanup World.init = .ok (false, World.init) := rfl
    rw [hcl]
    exact (open_resource_inner_eq env r c false [] OutStore.empty []).2 hspec
  · intro env r c w hr hc
    show open_resource_core env (some r) c w = .ok w
    unfold open_resource_core
    have hsame : sameActivePair w (some r) c = true := by
      unfold sameActivePair
      rw [hr, hc]
      simp
    rw [hsame]
    rfl
  · intro w r h
    unfold resource_of
    rw [h]
  · rfl
  · rfl
  · rfl

/-- **C9 witness**: the general parts instantiated at `envB`, resource `7`
and the state left by the failed open. -/
theorem C9_failed_open_not_retried_witness :
    (open_resource envB (some 7) (some cfg0) World.init =
      .error (.resourceError,
        ⟨⟨.ref 7, .ref cfg0, true⟩, [], OutStore.empty,
         [.openFailed 7 0]⟩)) ∧
    (open_resource envB (some 7) (some cfg0)
      ⟨⟨.ref 7, .ref cfg0, true⟩, [], OutStore.empty, [.openFailed 7 0]⟩ =
      .ok ⟨⟨.ref 7, .ref cfg0, true⟩, [], OutStore.empty,
        [.openFailed 7 0]⟩) ∧
    (resource_of 7
      ⟨⟨.ref 7, .ref cfg0, true⟩, [], OutStore.empty, [.openFailed 7 0]⟩ =
      .error .noOpenedResource) :=
  ⟨C9_failed_open_not_retried.1 envB 7 cfg0 rfl,
   C9_failed_open_not_retried.2.1 envB 7 cfg0 _ rfl rfl,
   C9_failed_open_not_retried.2.2.1 _ 7 rfl⟩


/-- Decomposing "an earlier outcome is a failure" across a cons. -/
theorem exists_failed_cons (o : Outcome) (os : List Outcome) (i : Nat) :
    (∃ j, j < i + 1 ∧ ∃ e, (o :: os)[j]? = some (.failed e)) ↔
    ((∃ e, o = .failed e) ∨ ∃ j, j < i ∧ ∃ e, os[j]? = some (.failed e)) := by
  constructor
  · rintro ⟨j, hj, e, hje⟩
    cases j with
    | zero =>
        left
        exact ⟨e, by simpa using hje⟩
    | succ j2 =>
        right
        refine ⟨j2, by omega, e, ?_⟩
        simpa using hje
  · rintro (⟨e, he⟩ | ⟨j, hj, e, hje⟩)
    · exact ⟨0, by omega, e, by simp [he]⟩
    · refine ⟨j + 1, by omega, e, ?_⟩
      simpa using hje

theorem not_exists_failed_lt_zero (os : List Outcome) :
    ¬ ∃ j, j < 0 ∧ ∃ e, os[j]? = some (Outcome.failed e) := by
  rintro ⟨j, hj, _⟩
  omega

theorem skipped_not_failed : ¬ ∃ e, Outcome.skipped = Outcome.failed e := by
  rintro ⟨e, h⟩
  cases h

theorem ok_not_failed : ¬ ∃ e, Outcome.ok = Outcome.failed e := by
  rintro ⟨e, h⟩
  cases h

/-- The skip characterisation of the harness: task `i` is skipped exactly
when the failure record was already non-empty on entry or an earlier task's
outcome is a failure, and task `i` has `run_with_exceptions = False`. -/
theorem harness_skipped_iff (env : Env) :
    ∀ (ts : List TaskDef) (failed : List (TaskId × Err)) (w : World)
      (i : Nat) (t : TaskDef), ts[i]? = some t →
      ((run_tasks_with_error_harness env ts failed w).2.2[i]? =
          some .skipped ↔
        ((failed ≠ [] ∨ ∃ j, j < i ∧ ∃ e,
            (run_tasks_with_error_harness env ts failed w).2.2[j]? =
              some (.failed e)) ∧
          t.run_with_exceptions = false)) := by
  intro ts
  induction ts with
  | nil =>
      intro failed w i t ht
      simp at ht
  | cons t0 rest ih =>
      intro failed w i t ht
      by_cases hsk : failed ≠ [] ∧ t0.run_with_exceptions = false
      · rw [harness_cons_skip env t0 rest failed w hsk.1 hsk.2]
        cases i with
        | zero =>
            simp only [List.getElem?_cons_zero, Option.some.injEq] at ht
            subst ht
            simp only [List.getElem?_cons_zero]
            constructor
            · intro _
              exact ⟨Or.inl hsk.1, hsk.2⟩
            · intro _
              trivial
        | succ i =>
            simp only [List.getElem?_cons_succ] at ht
            simp only [List.getElem?_cons_succ]
            rw [ih failed w i t ht, exists_failed_cons]
            have h1 := hsk.1
            have h2 := skipped_not_failed
            tauto
      · cases hrt : run_task env t0 w with
        | mk o w1 =>
            cases o with
            | none =>
                rw [harness_cons_ok env t0 rest failed w w1 hrt hsk]
                cases i with
                | zero =>
                    simp only [List.getElem?_cons_zero, Option.some.injEq] at ht
                    subst ht
                    simp only [List.getElem?_cons_zero]
                    constructor
                    · intro h
                      exact absurd h (by simp)
                    · rintro ⟨h1 | h1, h2⟩
                      · exact absurd ⟨h1, h2⟩ hsk
                      · exact absurd h1 (not_exists_failed_lt_zero _)
                | succ i =>
                    simp only [List.getElem?_cons_succ] at ht
                    simp only [List.getElem?_cons_succ]
                    rw [ih failed w1 i t ht, exists_failed_cons]
                    have h2 := ok_not_failed
                    tauto
            | some e0 =>
                rw [harness_cons_fail env t0 rest failed w w1 e0 hrt hsk]
                cases i with
                | zero =>
                    simp only [List.getElem?_cons_zero, Option.some.injEq] at ht
                    subst ht
                    simp only [List.getElem?_cons_zero]
                    constructor
                    · intro h
                      exact absurd h (by simp)
                    · rintro ⟨h1 | h1, h2⟩
                      · exact absurd ⟨h1, h2⟩ hsk
                      · exact absurd h1 (not_exists_failed_lt_zero _)
                | succ i =>
                    simp only [List.getElem?_cons_succ] at ht
                    simp only [List.getElem?_cons_succ]
                    rw [ih (failed ++ [(t0.id, e0)]) w1 i t ht,
                      exists_failed_cons]
                    have h1 : failed ++ [(t0.id, e0)] ≠ [] := by simp
                    have h2 : ∃ e, Outcome.failed e0 = Outcome.failed e :=
                      ⟨e0, rfl⟩
                    tauto


/-- **C1** Skip semantics.  Concrete part: on
`[T1(ok), T2(raises), T3(rwe=false), T4(rwe=true), T5(rwe=false)]` the
outcomes are `[ok, failed, skipped, ok, skipped]` (executed set
`{T1, T2, T4}`), the aggregate failure names exactly `T2`, the skipped
tasks record no output and their resources (`30`, `50`) are never opened
(the trace holds only `T1`/`T2`'s resource `10` and `T4`'s `40`).
General part: in any run that passes the pre-flight check, task `i` is
skipped iff some earlier task failed and task `i`'s
`run_with_exceptions` is `False`. -/
theorem C1_skip_semantics :
    ((bigrays_run envA tasksA).outcomes =
        [.ok, .failed (.taskErr 0), .skipped, .ok, .skipped] ∧
     (bigrays_run envA tasksA).failed = [(2, .taskErr 0)] ∧
     (bigrays_run envA tasksA).result =
        .error (.bigRaysError ⟨[2], [.taskErr 0]⟩) ∧
     (bigrays_run envA tasksA).world.out.values.lookup 3 = none ∧
     (bigrays_run envA tasksA).world.out.values.lookup 5 = none ∧
     (bigrays_run envA tasksA).world.trace =
        [.opened 10 0, .closed 10, .opened 40 0, .closed 40]) ∧
    (∀ (env : Env) (ts : List TaskDef)
        (hc : check_configs env (define_required_resources ts) = none)
        (i : Nat) (t : TaskDef), ts[i]? = some t →
        ((bigrays_run env ts).outcomes[i]? = some .skipped ↔
          ((∃ j, j < i ∧ ∃ e, (bigrays_run env ts).outcomes[j]? =
              some (.failed e)) ∧
            t.run_with_exceptions = false))) := by
  constructor
  · exact ⟨rfl, rfl, rfl, rfl, rfl, rfl⟩
  · intro env ts hc i t ht
    obtain ⟨w1, hcl, hInv1, _, _, hout, _, _⟩ := bigrays_run_eq env ts hc
    rw [hout]
    rw [harness_skipped_iff env ts [] World.init i t ht]
    have hnil : ¬((([] : List (TaskId × Err)) ≠ [])) := by simp
    tauto

/-- **C1 witness**: the general skip characterisation instantiated at the
concrete run `envA`/`tasksA`, position `2` (task `T3`). -/
theorem C1_skip_semantics_witness :
    (bigrays_run envA tasksA).outcomes[2]? = some .skipped ↔
      ((∃ j, j < 2 ∧ ∃ e, (bigrays_run envA tasksA).outcomes[j]? =
          some (.failed e)) ∧
        ({ id := 3, required_resource := some 30,
           behavior := .ret 3 } : TaskDef).run_with_exceptions = false) :=
  C1_skip_semantics.2 envA tasksA rfl 2
    { id := 3, required_resource := some 30, behavior := .ret 3 } rfl


/-- The failure record returned by the harness is the entry record plus the
failing tasks with their errors in task order. -/
theorem harness_failed_eq (env : Env) :
    ∀ (ts : List TaskDef) (failed : List (TaskId × Err)) (w : World),
      (run_tasks_with_error_harness env ts failed w).2.1 =
        failed ++ failedSpec ts
          (run_tasks_with_error_harness env ts failed w).2.2 := by
  intro ts
  induction ts with
  | nil =>
      intro failed w
      simp [run_tasks_with_error_harness, failedSpec]
  | cons t0 rest ih =>
      intro failed w
      by_cases hsk : failed ≠ [] ∧ t0.run_with_exceptions = false
      · rw [harness_cons_skip env t0 rest failed w hsk.1 hsk.2]
        show (run_tasks_with_error_harness env rest failed w).2.1 =
          failed ++ failedSpec (t0 :: rest)
            (.skipped :: (run_tasks_with_error_harness env rest failed w).2.2)
        rw [ih failed w]
        rfl
      · cases hrt : run_task env t0 w with
        | mk o w1 =>
            cases o with
            | none =>
                rw [harness_cons_ok env t0 rest failed w w1 hrt hsk]
                show (run_tasks_with_error_harness env rest failed w1).2.1 =
                  failed ++ failedSpec (t0 :: rest)
                    (.ok :: (run_tasks_with_error_harness env rest failed w1).2.2)
                rw [ih failed w1]
                rfl
            | some e0 =>
                rw [harness_cons_fail env t0 rest failed w w1 e0 hrt hsk]
                show (run_tasks_with_error_harness env rest
                    (failed ++ [(t0.id, e0)]) w1).2.1 =
                  failed ++ failedSpec (t0 :: rest)
                    (.failed e0 :: (run_tasks_with_error_harness env rest
                      (failed ++ [(t0.id, e0)]) w1).2.2)
                rw [ih (failed ++ [(t0.id, e0)]) w1]
                show failed ++ [(t0.id, e0)] ++ _ = failed ++ ([(t0.id, e0)] ++ _)
                rw [List.append_assoc]

/-- The harness's failure record is non-empty exactly when it was non-empty
on entry or some outcome is a failure. -/
theorem harness_failed_ne_nil_iff (env : Env) :
    ∀ (ts : List TaskDef) (failed : List (TaskId × Err)) (w : World),
      ((run_tasks_with_error_harness env ts failed w).2.1 ≠ [] ↔
        (failed ≠ [] ∨ ∃ o ∈ (run_tasks_with_error_harness env ts failed w).2.2,
          o.isFailed = true)) := by
  intro ts
  induction ts with
  | nil =>
      intro failed w
      show failed ≠ [] ↔ (failed ≠ [] ∨ ∃ o ∈ ([] : List Outcome), o.isFailed = true)
      simp
  | cons t0 rest ih =>
      intro failed w
      by_cases hsk : failed ≠ [] ∧ t0.run_with_exceptions = false
      · rw [harness_cons_skip env t0 rest failed w hsk.1 hsk.2]
        show (run_tasks_with_error_harness env rest failed w).2.1 ≠ [] ↔
          (failed ≠ [] ∨ ∃ o ∈ (Outcome.skipped ::
            (run_tasks_with_error_harness env rest failed w).2.2),
            o.isFailed = true)
        rw [ih failed w]
        simp [Outcome.isFailed]
      · cases hrt : run_task env t0 w with
        | mk o w1 =>
            cases o with
            | none =>
                rw [harness_cons_ok env t0 rest failed w w1 hrt hsk]
                show (run_tasks_with_error_harness env rest failed w1).2.1 ≠ [] ↔
                  (failed ≠ [] ∨ ∃ o ∈ (Outcome.ok ::
                    (run_tasks_with_error_harness env rest failed w1).2.2),
                    o.isFailed = true)
                rw [ih failed w1]
                simp [Outcome.isFailed]
            | some e0 =>
                rw [harness_cons_fail env t0 rest failed w w1 e0 hrt hsk]
                show (run_tasks_with_error_harness env rest
                    (failed ++ [(t0.id, e0)]) w1).2.1 ≠ [] ↔
                  (failed ≠ [] ∨ ∃ o ∈ (Outcome.failed e0 ::
                    (run_tasks_with_error_harness env rest
                      (failed ++ [(t0.id, e0)]) w1).2.2),
                    o.isFailed = true)
                rw [ih (failed ++ [(t0.id, e0)]) w1]
                simp [Outcome.isFailed]

/-- **C2** Aggregate failure reporting: in any run that passes the
pre-flight check, the failure record is exactly the failing tasks in task
(= failure) order with their underlying errors; `run` raises the aggregate
`BigRaysError` — whose payload carries every failed task and every
underlying error in that order — iff at least one executed task raised,
and returns normally iff no executed task raised. -/
theorem C2_aggregate_failure_reporting (env : Env) (ts : List TaskDef)
    (hc : check_configs env (define_required_resources ts) = none) :
    (bigrays_run env ts).failed =
      failedSpec ts (bigrays_run env ts).outcomes ∧
    ((bigrays_run env ts).result = .error (.bigRaysError
        ⟨(bigrays_run env ts).failed.map Prod.fst,
         (bigrays_run env ts).failed.map Prod.snd⟩) ↔
      ∃ o ∈ (bigrays_run env ts).outcomes, o.isFailed = true) ∧
    ((bigrays_run env ts).result = .ok () ↔
      ¬∃ o ∈ (bigrays_run env ts).outcomes, o.isFailed = true) := by
  obtain ⟨w1, hcl, hInv1, _, hfail, hout, hnil, hne⟩ := bigrays_run_eq env ts hc
  have hiff : (bigrays_run env ts).failed ≠ [] ↔
      ∃ o ∈ (bigrays_run env ts).outcomes, o.isFailed = true := by
    rw [hfail, hout]
    rw [harness_failed_ne_nil_iff env ts [] World.init]
    simp
  refine ⟨?_, ?_, ?_⟩
  · rw [hfail, hout]
    have h0 := harness_failed_eq env ts [] World.init
    simpa using h0
  · constructor
    · intro h1
      rw [← hiff]
      intro hcon
      rw [← hfail] at hnil
      rw [hnil hcon] at h1
      exact Except.noConfusion h1
    · intro h1
      rw [← hiff] at h1
      rw [← hfail] at hne
      rw [hne h1, hfail]
  · constructor
    · intro h1
      rw [← hiff]
      intro hcon
      rw [← hfail] at hne
      rw [hne hcon] at h1
      exact Except.noConfusion h1
    · intro h1
      rw [← hiff] at h1
      rw [← hfail] at hnil
      rw [hnil (by revert h1; simp)]

/-- **C2 witness**: the reporting contract at the concrete run
`envA`/`tasksA` (whose only failure is task `2`). -/
theorem C2_aggregate_failure_reporting_witness :
    (bigrays_run envA tasksA).failed =
      failedSpec tasksA (bigrays_run envA tasksA).outcomes ∧
    ((bigrays_run envA tasksA).result = .error (.bigRaysError
        ⟨(bigrays_run envA tasksA).failed.map Prod.fst,
         (bigrays_run envA tasksA).failed.map Prod.snd⟩) ↔
      ∃ o ∈ (bigrays_run envA tasksA).outcomes, o.isFailed = true) ∧
    ((bigrays_run envA tasksA).result = .ok () ↔
      ¬∃ o ∈ (bigrays_run envA tasksA).outcomes, o.isFailed = true) :=
  C2_aggregate_failure_reporting envA tasksA rfl


/-- Membership in `List.eraseDups.loop`. -/
theorem mem_eraseDups_loop (x : Nat) :
    ∀ (as bs : List Nat), x ∈ List.eraseDups.loop as bs ↔ x ∈ as ∨ x ∈ bs := by
  intro as
  induction as with
  | nil =>
      intro bs
      simp [List.eraseDups.loop]
  | cons a as ih =>
      intro bs
      unfold List.eraseDups.loop
      cases he : bs.elem a with
      | true =>
          rw [ih bs]
          have ha : a ∈ bs := by
            rw [← List.elem_iff]
            exact he
          simp only [List.mem_cons]
          constructor
          · rintro (h | h)
            · exact Or.inl (Or.inr h)
            · exact Or.inr h
          · rintro ((rfl | h) | h)
            · exact Or.inr ha
            · exact Or.inl h
            · exact Or.inr h
      | false =>
          rw [ih (a :: bs)]
          simp only [List.mem_cons]
          tauto

/-- `eraseDups` preserves membership. -/
theorem mem_eraseDups (x : Nat) (l : List Nat) :
    x ∈ l.eraseDups ↔ x ∈ l := by
  unfold List.eraseDups
  rw [mem_eraseDups_loop]
  simp

/-- The required-resources "set" contains exactly the `required_resource`
references of the task list. -/
theorem mem_define_required_resources (r : ResourceId) (ts : List TaskDef) :
    r ∈ define_required_resources ts ↔
      ∃ t ∈ ts, t.required_resource = some r := by
  unfold define_required_resources
  rw [mem_eraseDups]
  simp [List.mem_filterMap]

/-- **C5** Pre-flight configuration check: the check passes iff every
required key of every required resource is present (non-`None`); when some
key is missing, `run` returns the `ConfigurationError` immediately, with a
pristine final state — no task executed (no outcomes), no resource opened
(empty trace), nothing recorded — and the error's missing list contains
exactly the missing keys of ALL required resources. -/
theorem C5_preflight_configuration_check :
    (∀ (env : Env) (resources : List ResourceId),
        check_configs env resources = none ↔
        ∀ r ∈ resources, ∀ k ∈ env.reqConfigs r,
          (env.cfgAttr k).isSome = true) ∧
    (∀ (env : Env) (ts : List TaskDef) (rsrc : Option ResourceId)
        (missing : List String),
        check_configs env (define_required_resources ts) =
          some (rsrc, missing) →
        (bigrays_run env ts =
          { result := .error (.configurationError rsrc missing),
            world := World.init, failed := [], outcomes := [] } ∧
         (∀ k, k ∈ missing ↔ ∃ t ∈ ts, ∃ r, t.required_resource = some r ∧
            k ∈ env.reqConfigs r ∧ env.cfgAttr k = none))) := by
  have hmem : ∀ (env : Env) (resources : List ResourceId) (k : String),
      (k ∈ resources.flatMap (fun r => (env.reqConfigs r).filter
        (fun c => (env.cfgAttr c).isNone)) ↔
      ∃ r ∈ resources, k ∈ env.reqConfigs r ∧ env.cfgAttr k = none) := by
    intro env resources k
    rw [List.mem_flatMap]
    constructor
    · rintro ⟨r, hr, hk⟩
      rw [List.mem_filter] at hk
      exact ⟨r, hr, hk.1, by simpa [Option.isNone_iff_eq_none] using hk.2⟩
    · rintro ⟨r, hr, hk, hnone⟩
      exact ⟨r, hr, List.mem_filter.mpr ⟨hk, by simp [hnone]⟩⟩
  constructor
  · intro env resources
    simp only [check_configs]
    constructor
    · intro h r hr k hk
      by_cases hm : (resources.flatMap (fun r => (env.reqConfigs r).filter
          (fun c => (env.cfgAttr c).isNone))).isEmpty
      · have hm2 := List.isEmpty_iff.mp hm
        rw [List.flatMap_eq_nil_iff] at hm2
        have h3 := hm2 r hr
        rw [List.filter_eq_nil_iff] at h3
        have h4 := h3 k hk
        cases hx : env.cfgAttr k with
        | none => rw [hx] at h4; simp at h4
        | some v => rfl
      · rw [if_neg hm] at h
        exact Option.noConfusion h
    · intro h
      rw [if_pos]
      rw [List.isEmpty_iff, List.flatMap_eq_nil_iff]
      intro r hr
      rw [List.filter_eq_nil_iff]
      intro k hk
      have h2 := h r hr k hk
      cases hx : env.cfgAttr k with
      | none => rw [hx] at h2; simp at h2
      | some v => simp [hx]
  · intro env ts rsrc missing h
    have hmiss : missing = (define_required_resources ts).flatMap
        (fun r => (env.reqConfigs r).filter
          (fun c => (env.cfgAttr c).isNone)) := by
      revert h
      simp only [check_configs]
      by_cases hm : ((define_required_resources ts).flatMap
          (fun r => (env.reqConfigs r).filter
            (fun c => (env.cfgAttr c).isNone))).isEmpty
      · rw [if_pos hm]
        intro h
        exact Option.noConfusion h
      · rw [if_neg hm]
        intro h
        injection h with h
        injection h with h1 h2
        exact h2.symm
    constructor
    · unfold bigrays_run
      rw [h]
    · intro k
      rw [hmiss, hmem env (define_required_resources ts) k]
      constructor
      · rintro ⟨r, hr, hk, hnone⟩
        rw [mem_define_required_resources] at hr
        obtain ⟨t, ht, htr⟩ := hr
        exact ⟨t, ht, r, htr, hk, hnone⟩
      · rintro ⟨t, ht, r, htr, hk, hnone⟩
        refine ⟨r, ?_, hk, hnone⟩
        rw [mem_define_required_resources]
        exact ⟨t, ht, htr⟩

/-- **C5 witness**: the check at the concrete environment `envC` — passing
direction on a key-free task list, failing direction on `tasksC`, whose
missing list `["a", "b"]` spans both resources `1` and `2`. -/
theorem C5_preflight_configuration_check_witness :
    (check_configs envC [3] = none ↔
      ∀ r ∈ [3], ∀ k ∈ envC.reqConfigs r, (envC.cfgAttr k).isSome = true) ∧
    (bigrays_run envC tasksC =
      { result := .error (.configurationError (some 3) ["a", "b"]),
        world := World.init, failed := [], outcomes := [] } ∧
     (∀ k, k ∈ ["a", "b"] ↔ ∃ t ∈ tasksC, ∃ r,
        t.required_resource = some r ∧
        k ∈ envC.reqConfigs r ∧ envC.cfgAttr k = none)) :=
  ⟨C5_preflight_configuration_check.1 envC [3],
   C5_preflight_configuration_check.2 envC tasksC (some 3) ["a", "b"] rfl⟩

/-- **C10** Misattributed configuration error: when keys are missing for
two distinct required resources, `_check_configs` raises one
`ConfigurationError` whose missing list contains the keys of both
resources, but whose message names a single resource — the one iterated
last (the Python `for` loop variable leaks into the f-string) — regardless
of which resources actually contributed the keys. -/
theorem C10_misattributed_configuration_error (env : Env)
    (resources : List ResourceId) (r1 r2 : ResourceId) (k1 k2 : String)
    (h1 : r1 ∈ resources) (h2 : r2 ∈ resources) (hne : r1 ≠ r2)
    (hk1 : k1 ∈ env.reqConfigs r1) (hm1 : env.cfgAttr k1 = none)
    (hk2 : k2 ∈ env.reqConfigs r2) (hm2 : env.cfgAttr k2 = none) :
    ∃ missing, check_configs env resources =
        some (resources.getLast?, missing) ∧
      k1 ∈ missing ∧ k2 ∈ missing := by
  have hin1 : k1 ∈ resources.flatMap (fun r => (env.reqConfigs r).filter
      (fun c => (env.cfgAttr c).isNone)) :=
    List.mem_flatMap.mpr ⟨r1, h1, List.mem_filter.mpr ⟨hk1, by simp [hm1]⟩⟩
  have hin2 : k2 ∈ resources.flatMap (fun r => (env.reqConfigs r).filter
      (fun c => (env.cfgAttr c).isNone)) :=
    List.mem_flatMap.mpr ⟨r2, h2, List.mem_filter.mpr ⟨hk2, by simp [hm2]⟩⟩
  refine ⟨_, ?_, hin1, hin2⟩
  simp only [check_configs]
  rw [if_neg]
  intro hcon
  rw [List.isEmpty_iff.mp hcon] at hin1
  exact List.not_mem_nil k1 hin1

/-- **C10 witness**: at `envC` with resources `[1, 2, 3]`, the error names
resource `3` (the last iterated, which is missing nothing) while the
missing list `["a", "b"]` comes from resources `1` and `2`. -/
theorem C10_misattributed_configuration_error_witness :
    ∃ missing, check_configs envC [1, 2, 3] =
        some (([1, 2, 3] : List ResourceId).getLast?, missing) ∧
      "a" ∈ missing ∧ "b" ∈ missing :=
  C10_misattributed_configuration_error envC [1, 2, 3] 1 2 "a" "b"
    (by decide) (by decide) (by decide)
    (by simp [envC]) rfl (by simp [envC]) rfl


/-- `TaskOutput.__get__` never changes `_values`. -/
theorem OutStore.get_values (s : OutStore) (k : TaskId) :
    (s.get k).2.values = s.values := by
  unfold OutStore.get
  repeat' split
  all_goals rfl

/-- `TaskOutput.__set__` prepends the new binding to `_values`. -/
theorem OutStore.set_values (s : OutStore) (k : TaskId) (v : Value) :
    (s.set k v).values = (k, v) :: s.values := rfl

/-- Reading an uncompleted task through the store yields a placeholder
whose value access raises the unresolved-reference error (for a consistent
store). -/
theorem outstore_get_unresolved {s : OutStore} {k : TaskId} (hwf : s.WF)
    (hval : s.values.lookup k = none) :
    ∃ p s1, s.get k = (.ph p, s1) ∧
      s1.phValue p = .error .unresolvedPlaceholder := by
  obtain ⟨h1, _⟩ := hwf
  unfold OutStore.get
  rw [hval]
  cases hph : s.placeholders.lookup k with
  | some p =>
      refine ⟨p, s, rfl, ?_⟩
      unfold OutStore.phValue
      obtain ⟨_, hheap⟩ := h1 k p hph
      rw [hheap, hval]
  | none =>
      refine ⟨s.nextPh, _, rfl, ?_⟩
      unfold OutStore.phValue
      simp only
      rw [lookup_cons_self]

/-- A task body never changes `_values`. -/
theorem run_behavior_values (b : TaskBehavior) (w : World) :
    (run_behavior b w).2.out.values = w.out.values := by
  cases b with
  | ret v => rfl
  | raiseErr code => rfl
  | readOutput j =>
      cases hget : w.out.get j with
      | mk r s1 =>
          have hg : s1.values = w.out.values := by
            have h0 := OutStore.get_values w.out j
            rw [hget] at h0
            exact h0
          show (match w.out.get j with
            | (.val v, s1) =>
                ((Except.ok v : Except Err Value), { w with out := s1 })
            | (.ph p, s1) =>
                match s1.phValue p with
                | .ok v =>
                    ((Except.ok v : Except Err Value), { w with out := s1 })
                | .error e => (.error e, { w with out := s1 })).2.out.values =
            w.out.values
          rw [hget]
          cases r with
          | val v => exact hg
          | ph p =>
              show (match s1.phValue p with
                | .ok v =>
                    ((Except.ok v : Except Err Value), { w with out := s1 })
                | .error e => (.error e, { w with out := s1 })).2.out.values =
                w.out.values
              cases s1.phValue p <;> exact hg
  | useResource r =>
      show (match resource_of r w with
        | .ok h => ((Except.ok h : Except Err Value), w)
        | .error e => (.error e, w)).2.out.values = w.out.values
      cases resource_of r w <;> rfl

/-- A task body preserves output-store consistency. -/
theorem run_behavior_wf {b : TaskBehavior} {w : World} (hwf : w.out.WF) :
    (run_behavior b w).2.out.WF := by
  cases b with
  | ret v => exact hwf
  | raiseErr code => exact hwf
  | readOutput j =>
      cases hget : w.out.get j with
      | mk r s1 =>
          have hg : s1.WF := by
            have h0 := OutStore.WF.get hwf j
            rw [hget] at h0
            exact h0
          show (match w.out.get j with
            | (.val v, s1) =>
                ((Except.ok v : Except Err Value), { w with out := s1 })
            | (.ph p, s1) =>
                match s1.phValue p with
                | .ok v =>
                    ((Except.ok v : Except Err Value), { w with out := s1 })
                | .error e => (.error e, { w with out := s1 })).2.out.WF
          rw [hget]
          cases r with
          | val v => exact hg
          | ph p =>
              show (match s1.phValue p with
                | .ok v =>
                    ((Except.ok v : Except Err Value), { w with out := s1 })
                | .error e => (.error e, { w with out := s1 })).2.out.WF
              cases s1.phValue p <;> exact hg
  | useResource r =>
      show (match resource_of r w with
        | .ok h => ((Except.ok h : Except Err Value), w)
        | .error e => (.error e, w)).2.out.WF
      cases resource_of r w <;> exact hwf


/-- `_run_task` equation: the resource open failed. -/
theorem run_task_eq_open_fail (env : Env) (t : TaskDef) (w : World)
    (e : Err) (w0 : World)
    (hopen : open_resource env t.required_resource t.resource_config w =
      .error (e, w0)) :
    run_task env t w = (some e, w0) := by
  unfold run_task
  rw [hopen]

/-- `_run_task` equation: the resource opened but the task body raised. -/
theorem run_task_eq_behavior_fail (env : Env) (t : TaskDef) (w w0 w2 : World)
    (e : Err)
    (hopen : open_resource env t.required_resource t.resource_config w =
      .ok w0)
    (hb : run_behavior t.behavior w0 = (.error e, w2)) :
    run_task env t w = (some e, w2) := by
  unfold run_task
  rw [hopen]
  show (match run_behavior t.behavior w0 with
    | (.error e, w2) => ((some e : Option Err), w2)
    | (.ok v, w2) => (none, { w2 with out := w2.out.set t.id v })) = _
  rw [hb]

/-- `_run_task` equation: the task ran to completion; its result is
recorded under its identity. -/
theorem run_task_eq_behavior_ok (env : Env) (t : TaskDef) (w w0 w2 : World)
    (v : Value)
    (hopen : open_resource env t.required_resource t.resource_config w =
      .ok w0)
    (hb : run_behavior t.behavior w0 = (.ok v, w2)) :
    run_task env t w = (none, { w2 with out := w2.out.set t.id v }) := by
  unfold run_task
  rw [hopen]
  show (match run_behavior t.behavior w0 with
    | (.error e, w2) => ((some e : Option Err), w2)
    | (.ok v, w2) => (none, { w2 with out := w2.out.set t.id v })) = _
  rw [hb]

/-- Effect of one task on the recorded values: on success a binding for the
task's identity is added and nothing else changes; on failure (resource
open or task body) no value changes at all. -/
theorem run_task_values (env : Env) (t : TaskDef) {w : World} (hInv : Inv w) :
    (∀ w1, run_task env t w = (none, w1) →
      (∃ v, w1.out.values.lookup t.id = some v) ∧
      (∀ k, k ≠ t.id →
        w1.out.values.lookup k = w.out.values.lookup k)) ∧
    (∀ e w1, run_task env t w = (some e, w1) →
      ∀ k, w1.out.values.lookup k = w.out.values.lookup k) := by
  cases hopen : open_resource env t.required_resource t.resource_config w with
  | error ew =>
      obtain ⟨e0, w0⟩ := ew
      have hout : w0.out = w.out :=
        ((open_resource_inv env t.required_resource t.resource_config
          hInv).2 e0 w0 hopen).2
      have heq := run_task_eq_open_fail env t w e0 w0 hopen
      constructor
      · intro w1 h1
        rw [heq] at h1
        exact absurd h1 (by simp)
      · intro e w1 h1
        rw [heq] at h1
        injection h1 with h1a h1b
        subst h1b
        intro k
        rw [hout]
  | ok w0 =>
      have hout : w0.out = w.out :=
        ((open_resource_inv env t.required_resource t.resource_config
          hInv).1 w0 hopen).2
      cases hb : run_behavior t.behavior w0 with
      | mk res w2 =>
          have hvals2 : w2.out.values = w.out.values := by
            have h0 := run_behavior_values t.behavior w0
            rw [hb] at h0
            rw [hout] at h0
            exact h0
          cases res with
          | error e0 =>
              have heq := run_task_eq_behavior_fail env t w w0 w2 e0 hopen hb
              constructor
              · intro w1 h1
                rw [heq] at h1
                exact absurd h1 (by simp)
              · intro e w1 h1
                rw [heq] at h1
                injection h1 with h1a h1b
                subst h1b
                intro k
                rw [hvals2]
          | ok v =>
              have heq := run_task_eq_behavior_ok env t w w0 w2 v hopen hb
              constructor
              · intro w1 h1
                rw [heq] at h1
                injection h1 with h1a h1b
                subst h1b
                refine ⟨⟨v, ?_⟩, ?_⟩
                · show ((w2.out.set t.id v).values).lookup t.id = some v
                  rw [OutStore.set_values, lookup_cons_self]
                · intro k hk
                  show ((w2.out.set t.id v).values).lookup k = _
                  rw [OutStore.set_values, lookup_cons_of_ne hk, hvals2]
              · intro e w1 h1
                rw [heq] at h1
                exact absurd h1 (by simp)

/-- One task preserves output-store consistency. -/
theorem run_task_wf (env : Env) (t : TaskDef) {w : World} (hInv : Inv w)
    (hwf : w.out.WF) : (run_task env t w).2.out.WF := by
  unfold run_task
  cases hopen : open_resource env t.required_resource t.resource_config w with
  | error ew =>
      obtain ⟨e0, w0⟩ := ew
      have hout : w0.out = w.out :=
        ((open_resource_inv env t.required_resource t.resource_config
          hInv).2 e0 w0 hopen).2
      show w0.out.WF
      rw [hout]
      exact hwf
  | ok w0 =>
      have hout : w0.out = w.out :=
        ((open_resource_inv env t.required_resource t.resource_config
          hInv).1 w0 hopen).2
      have hwf0 : w0.out.WF := by rw [hout]; exact hwf
      have hwfb := run_behavior_wf (b := t.behavior) hwf0
      show (match run_behavior t.behavior w0 with
        | (.error e, w2) => ((some e : Option Err), w2)
        | (.ok v, w2) => (none, { w2 with out := w2.out.set t.id v })).2.out.WF
      cases hb : run_behavior t.behavior w0 with
      | mk res w2 =>
          have hwf2 : w2.out.WF := by
            rw [hb] at hwfb
            exact hwfb
          cases res with
          | error e0 => exact hwf2
          | ok v => exact OutStore.WF.set hwf2 t.id v

/-- The harness yields one outcome per task. -/
theorem harness_os_length (env : Env) :
    ∀ (ts : List TaskDef) (failed : List (TaskId × Err)) (w : World),
      (run_tasks_with_error_harness env ts failed w).2.2.length = ts.length := by
  intro ts
  induction ts with
  | nil =>
      intro failed w
      rfl
  | cons t0 rest ih =>
      intro failed w
      by_cases hsk : failed ≠ [] ∧ t0.run_with_exceptions = false
      · rw [harness_cons_skip env t0 rest failed w hsk.1 hsk.2]
        show ((run_tasks_with_error_harness env rest failed w).2.2.length) + 1 =
          rest.length + 1
        rw [ih failed w]
      · cases hrt : run_task env t0 w with
        | mk o w1 =>
            cases o with
            | none =>
                rw [harness_cons_ok env t0 rest failed w w1 hrt hsk]
                show ((run_tasks_with_error_harness env rest failed
                  w1).2.2.length) + 1 = rest.length + 1
                rw [ih failed w1]
            | some e0 =>
                rw [harness_cons_fail env t0 rest failed w w1 e0 hrt hsk]
                show ((run_tasks_with_error_harness env rest
                  (failed ++ [(t0.id, e0)]) w1).2.2.length) + 1 =
                  rest.length + 1
                rw [ih (failed ++ [(t0.id, e0)]) w1]

/-- The harness preserves output-store consistency. -/
theorem harness_wf (env : Env) :
    ∀ (ts : List TaskDef) (failed : List (TaskId × Err)) {w : World},
      Inv w → w.out.WF →
      (run_tasks_with_error_harness env ts failed w).1.out.WF := by
  intro ts
  induction ts with
  | nil =>
      intro failed w _ hwf
      exact hwf
  | cons t0 rest ih =>
      intro failed w hInv hwf
      by_cases hsk : failed ≠ [] ∧ t0.run_with_exceptions = false
      · rw [harness_cons_skip env t0 rest failed w hsk.1 hsk.2]
        exact ih failed hInv hwf
      · cases hrt : run_task env t0 w with
        | mk o w1 =>
            have hInv1 : Inv w1 := by
              have h0 := run_task_inv env t0 hInv
              rw [hrt] at h0
              exact h0
            have hwf1 : w1.out.WF := by
              have h0 := run_task_wf env t0 hInv hwf
              rw [hrt] at h0
              exact h0
            cases o with
            | none =>
                rw [harness_cons_ok env t0 rest failed w w1 hrt hsk]
                exact ih failed hInv1 hwf1
            | some e0 =>
                rw [harness_cons_fail env t0 rest failed w w1 e0 hrt hsk]
                exact ih (failed ++ [(t0.id, e0)]) hInv1 hwf1

/-- Splitting a harness run at a list position: the suffix continues from
the prefix's final state and failure record, and the outcome lists
concatenate. -/
theorem harness_append (env : Env) :
    ∀ (xs ys : List TaskDef) (failed : List (TaskId × Err)) (w : World),
      run_tasks_with_error_harness env (xs ++ ys) failed w =
        ((run_tasks_with_error_harness env ys
            (run_tasks_with_error_harness env xs failed w).2.1
            (run_tasks_with_error_harness env xs failed w).1).1,
         (run_tasks_with_error_harness env ys
            (run_tasks_with_error_harness env xs failed w).2.1
            (run_tasks_with_error_harness env xs failed w).1).2.1,
         (run_tasks_with_error_harness env xs failed w).2.2 ++
           (run_tasks_with_error_harness env ys
            (run_tasks_with_error_harness env xs failed w).2.1
            (run_tasks_with_error_harness env xs failed w).1).2.2) := by
  intro xs
  induction xs with
  | nil =>
      intro ys failed w
      show run_tasks_with_error_harness env ys failed w =
        ((run_tasks_with_error_harness env ys failed w).1,
         (run_tasks_with_error_harness env ys failed w).2.1,
         [] ++ (run_tasks_with_error_harness env ys failed w).2.2)
      cases run_tasks_with_error_harness env ys failed w with
      | mk w2 rest =>
          cases rest with
          | mk f2 os2 => rfl
  | cons t0 xs ih =>
      intro ys failed w
      by_cases hsk : failed ≠ [] ∧ t0.run_with_exceptions = false
      · rw [show (t0 :: xs) ++ ys = t0 :: (xs ++ ys) from rfl,
          harness_cons_skip env t0 (xs ++ ys) failed w hsk.1 hsk.2,
          harness_cons_skip env t0 xs failed w hsk.1 hsk.2,
          ih ys failed w]
        rfl
      · cases hrt : run_task env t0 w with
        | mk o w1 =>
            cases o with
            | none =>
                rw [show (t0 :: xs) ++ ys = t0 :: (xs ++ ys) from rfl,
                  harness_cons_ok env t0 (xs ++ ys) failed w w1 hrt hsk,
                  harness_cons_ok env t0 xs failed w w1 hrt hsk,
                  ih ys failed w1]
                rfl
            | some e0 =>
                rw [show (t0 :: xs) ++ ys = t0 :: (xs ++ ys) from rfl,
                  harness_cons_fail env t0 (xs ++ ys) failed w w1 e0 hrt hsk,
                  harness_cons_fail env t0 xs failed w w1 e0 hrt hsk,
                  ih ys (failed ++ [(t0.id, e0)]) w1]
                rfl


/-- Value-resolution through a harness run: starting from a state in which
none of the tasks has a recorded value and with pairwise-distinct task
identities, a task's value is recorded at the end iff its outcome is `ok`;
identities not in the list keep their prior binding. -/
theorem harness_values_lookup (env : Env) :
    ∀ (ts : List TaskDef) (failed : List (TaskId × Err)) (w : World),
      Inv w →
      (ts.map TaskDef.id).Nodup →
      (∀ t ∈ ts, w.out.values.lookup t.id = none) →
      ((∀ k, (∀ t ∈ ts, t.id ≠ k) →
        (run_tasks_with_error_harness env ts failed w).1.out.values.lookup k =
          w.out.values.lookup k) ∧
       (∀ (i : Nat) (t : TaskDef), ts[i]? = some t →
        (((run_tasks_with_error_harness env ts failed
            w).1.out.values.lookup t.id).isSome = true ↔
          (run_tasks_with_error_harness env ts failed w).2.2[i]? =
            some Outcome.ok))) := by
  intro ts
  induction ts with
  | nil =>
      intro failed w _ _ _
      constructor
      · intro k _
        rfl
      · intro i t ht
        simp at ht
  | cons t0 rest ih =>
      intro failed w hInv hnd hfresh
      have hnd2 : (rest.map TaskDef.id).Nodup := by
        rw [List.map_cons] at hnd
        exact hnd.of_cons
      have hnotin : ∀ t ∈ rest, t.id ≠ t0.id := by
        intro t htmem hcon
        rw [List.map_cons, List.nodup_cons] at hnd
        exact hnd.1 (hcon ▸ List.mem_map_of_mem TaskDef.id htmem)
      by_cases hsk : failed ≠ [] ∧ t0.run_with_exceptions = false
      · rw [harness_cons_skip env t0 rest failed w hsk.1 hsk.2]
        have hfresh2 : ∀ t ∈ rest, w.out.values.lookup t.id = none :=
          fun t htm => hfresh t (List.mem_cons_of_mem t0 htm)
        obtain ⟨ihA, ihB⟩ := ih failed w hInv hnd2 hfresh2
        constructor
        · intro k hk
          exact ihA k (fun t htm => hk t (List.mem_cons_of_mem t0 htm))
        · intro i t ht
          cases i with
          | zero =>
              simp only [List.getElem?_cons_zero, Option.some.injEq] at ht
              subst ht
              simp only [List.getElem?_cons_zero]
              rw [ihA t0.id (fun t2 htm => hnotin t2 htm),
                hfresh t0 (List.mem_cons_self t0 rest)]
              simp
          | succ i =>
              simp only [List.getElem?_cons_succ] at ht
              simp only [List.getElem?_cons_succ]
              exact ihB i t ht
      · cases hrt : run_task env t0 w with
        | mk o w1 =>
            have hInv1 : Inv w1 := by
              have h0 := run_task_inv env t0 hInv
              rw [hrt] at h0
              exact h0
            cases o with
            | none =>
                rw [harness_cons_ok env t0 rest failed w w1 hrt hsk]
                obtain ⟨⟨v0, hv0⟩, hother⟩ :=
                  (run_task_values env t0 hInv).1 w1 hrt
                have hfresh1 : ∀ t ∈ rest, w1.out.values.lookup t.id = none := by
                  intro t htm
                  rw [hother t.id (hnotin t htm)]
                  exact hfresh t (List.mem_cons_of_mem t0 htm)
                obtain ⟨ihA, ihB⟩ := ih failed w1 hInv1 hnd2 hfresh1
                constructor
                · intro k hk
                  rw [ihA k (fun t htm => hk t (List.mem_cons_of_mem t0 htm)),
                    hother k (Ne.symm (hk t0 (List.mem_cons_self t0 rest)))]
                · intro i t ht
                  cases i with
                  | zero =>
                      simp only [List.getElem?_cons_zero, Option.some.injEq] at ht
                      subst ht
                      simp only [List.getElem?_cons_zero]
                      rw [ihA t0.id (fun t2 htm => hnotin t2 htm), hv0]
                      simp
                  | succ i =>
                      simp only [List.getElem?_cons_succ] at ht
                      simp only [List.getElem?_cons_succ]
                      exact ihB i t ht
            | some e0 =>
                rw [harness_cons_fail env t0 rest failed w w1 e0 hrt hsk]
                have hother := (run_task_values env t0 hInv).2 e0 w1 hrt
                have hfresh1 : ∀ t ∈ rest, w1.out.values.lookup t.id = none := by
                  intro t htm
                  rw [hother t.id]
                  exact hfresh t (List.mem_cons_of_mem t0 htm)
                obtain ⟨ihA, ihB⟩ :=
                  ih (failed ++ [(t0.id, e0)]) w1 hInv1 hnd2 hfresh1
                constructor
                · intro k hk
                  rw [ihA k (fun t htm => hk t (List.mem_cons_of_mem t0 htm)),
                    hother k]
                · intro i t ht
                  cases i with
                  | zero =>
                      simp only [List.getElem?_cons_zero, Option.some.injEq] at ht
                      subst ht
                      simp only [List.getElem?_cons_zero]
                      rw [ihA t0.id (fun t2 htm => hnotin t2 htm), hother t0.id,
                        hfresh t0 (List.mem_cons_self t0 rest)]
                      simp
                  | succ i =>
                      simp only [List.getElem?_cons_succ] at ht
                      simp only [List.getElem?_cons_succ]
                      exact ihB i t ht


/-- Reading the output of a task with no recorded value raises the
unresolved-reference error inside the reading task's body. -/
theorem run_behavior_read_unresolved {w : World} {j : TaskId}
    (hwf : w.out.WF) (hval : w.out.values.lookup j = none) :
    ∃ w2, run_behavior (.readOutput j) w =
      (.error .unresolvedPlaceholder, w2) := by
  obtain ⟨p, s1, hget, hphv⟩ := outstore_get_unresolved hwf hval
  refine ⟨{ w with out := s1 }, ?_⟩
  show (match w.out.get j with
    | (.val v, s1) => ((Except.ok v : Except Err Value), { w with out := s1 })
    | (.ph p, s1) =>
        match s1.phValue p with
        | .ok v => ((Except.ok v : Except Err Value), { w with out := s1 })
        | .error e => (.error e, { w with out := s1 })) = _
  rw [hget]
  show (match s1.phValue p with
    | .ok v => ((Except.ok v : Except Err Value), { w with out := s1 })
    | .error e => (.error e, { w with out := s1 })) = _
  rw [hphv]

/-- Nodup of the identity list restricted to a prefix. -/
theorem nodup_ids_take {ts : List TaskDef} (k : Nat)
    (hnd : (ts.map TaskDef.id).Nodup) :
    ((ts.take k).map TaskDef.id).Nodup := by
  rw [List.map_take]
  exact List.Nodup.sublist (List.take_sublist k _) hnd

/-- **C8** Ordering and resolution invariant.  (1) For every split point
`k`, the first `k` outcomes of the full run are exactly the outcomes of
running only the first `k` tasks — later tasks influence nothing before
them, i.e. task `k` begins only after tasks `j < k` fully completed.
(2) Before task `k` begins, task `j < k`'s output is recorded iff task
`j`'s outcome is `ok`.  (3) If task `j` did not succeed, a later task `k`
whose body reads task `j`'s output — and which actually runs (not skipped,
resource step succeeded) — fails with the unresolved-reference error. -/
theorem C8_ordering_and_resolution (env : Env) (ts : List TaskDef)
    (hnd : (ts.map TaskDef.id).Nodup) :
    (∀ k, (run_tasks_with_error_harness env ts [] World.init).2.2.take k =
      (run_tasks_with_error_harness env (ts.take k) [] World.init).2.2) ∧
    (∀ (k j : Nat) (t : TaskDef), j < k → ts[j]? = some t →
      (((run_tasks_with_error_harness env (ts.take k) []
          World.init).1.out.values.lookup t.id).isSome = true ↔
        (run_tasks_with_error_harness env ts [] World.init).2.2[j]? =
          some Outcome.ok)) ∧
    (∀ (k j : Nat) (t tk : TaskDef) (w2 : World),
      j < k → ts[j]? = some t → ts[k]? = some tk →
      tk.behavior = .readOutput t.id →
      (run_tasks_with_error_harness env ts [] World.init).2.2[j]? ≠
        some Outcome.ok →
      (run_tasks_with_error_harness env ts [] World.init).2.2[k]? ≠
        some Outcome.skipped →
      open_resource env tk.required_resource tk.resource_config
        (run_tasks_with_error_harness env (ts.take k) [] World.init).1 =
        .ok w2 →
      (run_tasks_with_error_harness env ts [] World.init).2.2[k]? =
        some (Outcome.failed Err.unresolvedPlaceholder)) := by
  have htake : ∀ k,
      (run_tasks_with_error_harness env ts [] World.init).2.2.take k =
      (run_tasks_with_error_harness env (ts.take k) [] World.init).2.2 := by
    intro k
    have hsplit := harness_append env (ts.take k) (ts.drop k) [] World.init
    rw [List.take_append_drop] at hsplit
    rw [hsplit]
    show ((run_tasks_with_error_harness env (ts.take k) [] World.init).2.2 ++
      _).take k = _
    by_cases hk : k ≤ ts.length
    · apply List.take_left'
      rw [harness_os_length, List.length_take]
      omega
    · have hlen : (run_tasks_with_error_harness env (ts.take k) []
          World.init).2.2.length = ts.length := by
        rw [harness_os_length, List.length_take]
        omega
      have hdrop0 : ts.drop k = [] := List.drop_eq_nil_of_le (by omega)
      rw [hdrop0]
      have hsuf : (run_tasks_with_error_harness env ([] : List TaskDef)
          (run_tasks_with_error_harness env (ts.take k) [] World.init).2.1
          (run_tasks_with_error_harness env (ts.take k) []
            World.init).1).2.2 = [] := rfl
      rw [hsuf, List.append_nil, List.take_of_length_le]
      rw [hlen]
      omega
  have hres : ∀ (k j : Nat) (t : TaskDef), j < k → ts[j]? = some t →
      (((run_tasks_with_error_harness env (ts.take k) []
          World.init).1.out.values.lookup t.id).isSome = true ↔
        (run_tasks_with_error_harness env ts [] World.init).2.2[j]? =
          some Outcome.ok) := by
    intro k j t hjk htj
    have htj2 : (ts.take k)[j]? = some t := by
      rw [List.getElem?_take_of_lt hjk]
      exact htj
    have hmain := (harness_values_lookup env (ts.take k) [] World.init
      Inv.init (nodup_ids_take k hnd) (fun t2 _ => rfl)).2 j t htj2
    rw [hmain]
    have hj2 : (run_tasks_with_error_harness env ts [] World.init).2.2[j]? =
        ((run_tasks_with_error_harness env ts [] World.init).2.2.take k)[j]? := by
      rw [List.getElem?_take_of_lt hjk]
    rw [hj2, htake k]
  refine ⟨htake, hres, ?_⟩
  intro k j t tk w2 hjk htj htk hbeh hjne hkne hopen
  have hklen : k < ts.length := by
    rcases List.getElem?_eq_some_iff.mp htk with ⟨h, _⟩
    exact h
  have hInvP : Inv (run_tasks_with_error_harness env (ts.take k) []
      World.init).1 := harness_inv env (ts.take k) [] Inv.init
  have hWFP : (run_tasks_with_error_harness env (ts.take k) []
      World.init).1.out.WF :=
    harness_wf env (ts.take k) [] Inv.init OutStore.WF.empty
  have hval : (run_tasks_with_error_harness env (ts.take k) []
      World.init).1.out.values.lookup t.id = none := by
    have h1 := hres k j t hjk htj
    rw [Option.eq_none_iff_forall_not_mem]
    intro v hv
    have : ((run_tasks_with_error_harness env (ts.take k) []
        World.init).1.out.values.lookup t.id).isSome = true := by
      rw [Option.mem_def] at hv
      rw [hv]
      rfl
    exact hjne (h1.mp this)
  have hout2 : w2.out = (run_tasks_with_error_harness env (ts.take k) []
      World.init).1.out :=
    ((open_resource_inv env tk.required_resource tk.resource_config
      hInvP).1 w2 hopen).2
  have hval2 : w2.out.values.lookup t.id = none := by
    rw [hout2]
    exact hval
  have hWF2 : w2.out.WF := by
    rw [hout2]
    exact hWFP
  obtain ⟨w3, hb⟩ := run_behavior_read_unresolved hWF2 hval2
  rw [← hbeh] at hb
  have hrt := run_task_eq_behavior_fail env tk
    (run_tasks_with_error_harness env (ts.take k) [] World.init).1 w2 w3
    Err.unresolvedPlaceholder hopen hb
  have hsplit := harness_append env (ts.take k) (ts.drop k) [] World.init
  rw [List.take_append_drop] at hsplit
  have hlenpre : (run_tasks_with_error_harness env (ts.take k) []
      World.init).2.2.length = k := by
    rw [harness_os_length, List.length_take]
    omega
  have hdrop : ts.drop k = tk :: ts.drop (k + 1) := by
    rcases List.getElem?_eq_some_iff.mp htk with ⟨h, hgk⟩
    rw [List.drop_eq_getElem_cons h, hgk]
  have hkth : (run_tasks_with_error_harness env ts [] World.init).2.2[k]? =
      (run_tasks_with_error_harness env (ts.drop k)
        (run_tasks_with_error_harness env (ts.take k) [] World.init).2.1
        (run_tasks_with_error_harness env (ts.take k) []
          World.init).1).2.2[0]? := by
    rw [hsplit]
    show ((run_tasks_with_error_harness env (ts.take k) [] World.init).2.2 ++
      _)[k]? = _
    rw [List.getElem?_append_right (by rw [hlenpre])]
    rw [hlenpre]
    simp
  rw [hkth] at hkne ⊢
  rw [hdrop] at hkne ⊢
  by_cases hsk : (run_tasks_with_error_harness env (ts.take k) []
      World.init).2.1 ≠ [] ∧ tk.run_with_exceptions = false
  · rw [harness_cons_skip env tk (ts.drop (k + 1)) _ _ hsk.1 hsk.2] at hkne
    simp at hkne
  · rw [harness_cons_fail env tk (ts.drop (k + 1)) _ _ w3
      Err.unresolvedPlaceholder hrt hsk]
    simp


/-- **C8 witness**: at the concrete run `tasksD` (task `1` raises, task `2`
always runs and reads task `1`'s output), the resolution iff at positions
`0 < 1` and the unresolved-reference failure of the reading task. -/
theorem C8_ordering_and_resolution_witness :
    ((((run_tasks_with_error_harness envA (tasksD.take 1) []
        World.init).1.out.values.lookup
          ({ id := 1, behavior := .raiseErr 0 : TaskDef}).id).isSome = true ↔
      (run_tasks_with_error_harness envA tasksD [] World.init).2.2[0]? =
        some Outcome.ok) ∧
     (run_tasks_with_error_harness envA tasksD [] World.init).2.2[1]? =
        some (Outcome.failed Err.unresolvedPlaceholder)) :=
  ⟨(C8_ordering_and_resolution envA tasksD (by decide)).2.1 1 0
      { id := 1, behavior := .raiseErr 0 } (by decide) rfl,
   (C8_ordering_and_resolution envA tasksD (by decide)).2.2 1 0
      { id := 1, behavior := .raiseErr 0 }
      { id := 2, run_with_exceptions := true, behavior := .readOutput 1 }
      (run_tasks_with_error_harness envA (tasksD.take 1) [] World.init).1
      (by decide) rfl rfl rfl (by decide) (by decide) rfl⟩


/-- `eraseDups.loop` keeps its accumulator duplicate-free. -/
theorem nodup_eraseDups_loop :
    ∀ (as bs : List String), bs.Nodup → (List.eraseDups.loop as bs).Nodup := by
  intro as
  induction as with
  | nil =>
      intro bs h
      unfold List.eraseDups.loop
      exact List.nodup_reverse.mpr h
  | cons a as ih =>
      intro bs h
      unfold List.eraseDups.loop
      cases he : bs.elem a with
      | true => exact ih bs h
      | false =>
          apply ih (a :: bs)
          rw [List.nodup_cons]
          refine ⟨?_, h⟩
          intro hmem
          rw [← List.elem_iff] at hmem
          rw [he] at hmem
          exact Bool.noConfusion hmem

/-- The required-attribute set computed by `_check_interface` is
duplicate-free (it is a Python set). -/
theorem nodup_required_attributes (bases : List PyClass) :
    (required_attributes bases).Nodup := by
  unfold required_attributes List.eraseDups
  exact nodup_eraseDups_loop _ [] List.nodup_nil

/-- **C6 counterexample**: the claim's "any ancestor" reading is false on
the code.  `Leaf`'s ancestor `M` (reached through the public task `Pub`)
marks `z` as required and `Leaf` does not provide it, so the claim demands
an `InterfaceError` and no registration; the code raises nothing and
registers `Leaf`, because `_check_interface` only inspects the own dicts of
the DIRECT bases (here `Pub`, whose own dict is empty). -/
theorem C6_interface_validation_counterexample :
    (define_all [pyBaseTask, pyPub, pyLeaf]).register = ["Leaf"] ∧
    (define_all [pyBaseTask, pyPub, pyLeaf]).errors = [] ∧
    missing_attributes_spec pyLeaf = ["z"] ∧
    check_interface pyLeaf.name pyLeaf.bases pyLeaf.ns = none := by
  refine ⟨?_, ?_, ?_, ?_⟩ <;> rfl

/-- **C6 (amended)** Definition-time interface validation, as the code
implements it: defining a task type (after `BaseTask`, below a public
task) raises `TaskInterfaceError` iff some attribute marked required in
the own dict of a DIRECT base is not concretely provided in the new type's
own namespace; the error names the type and the set of missing attributes
(deduplicated; a Python set's iteration order is unspecified, so only
membership is stated); a failing type is not registered, and a passing
type is appended to the register (definition order). -/
theorem C6_interface_validation_amended :
    (∀ (name : String) (bases : List PyClass) (ns : List (String × Bool)),
      ((check_interface name bases ns).isSome = true ↔
        ∃ a ∈ required_attributes bases, notProvided ns a = true) ∧
      (∀ nm missing, check_interface name bases ns = some (nm, missing) →
        nm = name ∧ missing.Nodup ∧
        (∀ a, a ∈ missing ↔
          a ∈ required_attributes bases ∧ notProvided ns a = true))) ∧
    (∀ (st : RegState) (c : PyClass),
      st.definedBaseTask = true →
      hasIsTask st.isTaskMarked c = true →
      (((check_interface c.name c.bases c.ns).isSome = true →
        (define_class st c).register = st.register) ∧
       (check_interface c.name c.bases c.ns = none →
        (define_class st c).register = st.register ++ [c.name]))) := by
  constructor
  · intro name bases ns
    constructor
    · unfold check_interface
      by_cases hm : (missing_attributes bases ns).isEmpty
      · rw [if_pos hm]
        constructor
        · intro h
          exact Bool.noConfusion h
        · rintro ⟨a, ha, hp⟩
          exfalso
          have hmem : a ∈ missing_attributes bases ns :=
            List.mem_filter.mpr ⟨ha, hp⟩
          rw [List.isEmpty_iff.mp hm] at hmem
          exact List.not_mem_nil a hmem
      · rw [if_neg hm]
        constructor
        · intro _
          have hne : missing_attributes bases ns ≠ [] := by
            intro hcon
            rw [hcon] at hm
            exact hm rfl
          obtain ⟨a, ha⟩ := List.exists_mem_of_ne_nil _ hne
          have hmem := List.mem_filter.mp ha
          exact ⟨a, hmem.1, hmem.2⟩
        · intro _
          rfl
    · intro nm missing h
      unfold check_interface at h
      by_cases hm : (missing_attributes bases ns).isEmpty
      · rw [if_pos hm] at h
        exact Option.noConfusion h
      · rw [if_neg hm] at h
        injection h with h
        injection h with h1 h2
        subst h1
        subst h2
        refine ⟨rfl, ?_, ?_⟩
        · exact List.Nodup.filter _ (nodup_required_attributes bases)
        · intro a
          exact List.mem_filter
  · intro st c h1 h2
    have hstep : define_class st c =
        match check_interface c.name c.bases c.ns with
        | some err => { st with errors := st.errors ++ [err] }
        | none => { st with register := st.register ++ [c.name] } := by
      unfold define_class
      rw [h1, h2]
      rfl
    constructor
    · intro hsome
      cases hci : check_interface c.name c.bases c.ns with
      | none =>
          rw [hci] at hsome
          exact Bool.noConfusion hsome
      | some err =>
          rw [hstep, hci]
    · intro hnone
      rw [hstep, hnone]

/-- **C6 witness**: the amended validation at concrete classes — the
failing subclass of the SQL-style public task (`statement` left required)
and the passing leaf below `Pub`. -/
theorem C6_interface_validation_amended_witness :
    (((check_interface "Bad" [PyClass.mk "SQLExec" [pyBaseTask]
        [("statement", true)]] []).isSome = true ↔
      ∃ a ∈ required_attributes [PyClass.mk "SQLExec" [pyBaseTask]
        [("statement", true)]], notProvided [] a = true) ∧
     ((check_interface pyLeaf.name pyLeaf.bases pyLeaf.ns).isSome = true →
      (define_class ⟨true, ["Pub"], [], []⟩ pyLeaf).register = []) ∧
     (check_interface pyLeaf.name pyLeaf.bases pyLeaf.ns = none →
      (define_class ⟨true, ["Pub"], [], []⟩ pyLeaf).register =
        [] ++ [pyLeaf.name])) :=
  ⟨(C6_interface_validation_amended.1 "Bad"
      [PyClass.mk "SQLExec" [pyBaseTask] [("statement", true)]] []).1,
   (C6_interface_validation_amended.2 ⟨true, ["Pub"], [], []⟩ pyLeaf
      rfl rfl).1,
   (C6_interface_validation_amended.2 ⟨true, ["Pub"], [], []⟩ pyLeaf
      rfl rfl).2⟩

end Bigrays
